import Mathlib

/-!
Verification of the faceted-aggregation engine in `eprintviews/aggregator.py`.

The Python module is shallowly embedded below.  Records are map-like objects
with optional fields, embedded as a structure of `Option` fields (a `none`
field is an absent dictionary key).  Python dictionaries (which preserve
insertion order) are embedded as association lists to which fresh keys are
appended at the end.  `list.sort(key = f)` is Python's stable sort; for the
total preorders arising from a key function a stable sort's output is unique,
so it is embedded as a stable insertion sort `pySort`.  Functions that can
raise a Python exception are embedded in `Except String`.
-/

namespace EP

/-- Embeds one entry of a record's `creators` list: a Python dict optionally
carrying `id` and `display_name` keys. -/
structure Creator where
  id : Option String := none
  display_name : Option String := none
deriving Repr, DecidableEq

/-- Embeds a record (a decoded JSON object).  Each field is `none` when the
corresponding key is absent from the Python dict.  `eprint_id` holds the
stringified value (the source only ever uses it through an f-string), and
`subjects` holds the `subjects.items` list of subject codes. -/
structure Record where
  date : Option String := none
  eprint_id : Option String := none
  type : Option String := none
  creators : Option (List Creator) := none
  publication : Option String := none
  issn : Option String := none
  collection : Option String := none
  event_title : Option String := none
  event_location : Option String := none
  event_dates : Option String := none
  lastmod : Option String := none
  subjects : Option (List String) := none
deriving Repr, DecidableEq

/-- Embeds a group-descriptor dict built by the facet builders.  The
facet-specific extra entries (`year`, `people_id`, ...) are `Option` fields;
`none` means the facet did not put that key into the dict. -/
structure Group where
  key : String
  label : String
  count : Nat
  objects : List Record
  year : Option String := none
  people_id : Option String := none
  sort_name : Option String := none
  subject_id : Option String := none
  subject_name : Option String := none
  eprint_id : Option String := none
  type : Option String := none
deriving Repr, DecidableEq

/-- Association list embedding a Python dict from group key to group,
in insertion order (Python dicts preserve insertion order). -/
abbrev AList := List (String × Group)

/-- Embeds dict lookup `d[k]` (as an `Option`, `none` when the key is absent). -/
def lookupA (d : AList) (k : String) : Option Group :=
  match d with
  | [] => none
  | p :: rest => if p.1 = k then some p.2 else lookupA rest k

/-- Embeds the membership test `k in d`. -/
def containsA (d : AList) (k : String) : Bool :=
  (lookupA d k).isSome

/-- Embeds in-place mutation `d[k] = f (d[k])` of an existing entry; a dict
has at most one entry per key, so only the first match is rewritten. -/
def updateA (d : AList) (k : String) (f : Group → Group) : AList :=
  match d with
  | [] => []
  | p :: rest => if p.1 = k then (p.1, f p.2) :: rest else p :: updateA rest k f

/-- Embeds the two statements `d[k]['count'] += 1` and
`d[k]['objects'].append(obj)` applied to one group. -/
def bump (obj : Record) (g : Group) : Group :=
  { g with count := g.count + 1, objects := g.objects ++ [obj] }

/-- Embeds the common facet-builder step: `if not k in d: d[k] = mk` followed
by `d[k]['count'] += 1; d[k]['objects'].append(obj)`.  A fresh key is
appended at the end, as in a Python dict. -/
def insertGroup (d : AList) (k : String) (mk : Group) (obj : Record) : AList :=
  let d' := if containsA d k then d else d ++ [(k, mk)]
  updateA d' k (bump obj)

/-- Inserts `a` into `l` before the first element not strictly below it;
helper for `pySort`. -/
def insertLe {α : Type} (le : α → α → Bool) (a : α) : List α → List α
  | [] => [a]
  | b :: bs => if le b a && !le a b then b :: insertLe le a bs else a :: b :: bs

/-- Embeds Python's stable `list.sort` with a boolean comparison `le` derived
from a sort key: a stable insertion sort (for a total preorder the output of
any stable sort is unique, so this is faithful to Timsort). -/
def pySort {α : Type} (le : α → α → Bool) : List α → List α
  | [] => []
  | a :: as => insertLe le a (pySort le as)

/-- Lexicographic `≤` on character lists by Unicode code point; helper for
`pyStrLe`. -/
def charListLe : List Char → List Char → Bool
  | [], _ => true
  | _ :: _, [] => false
  | a :: as, b :: bs =>
    if a.toNat < b.toNat then true
    else if b.toNat < a.toNat then false
    else charListLe as bs

/-- Embeds Python's `<=` on strings: lexicographic comparison by Unicode
code point. -/
def pyStrLe (s t : String) : Bool :=
  charListLe s.toList t.toList

/-- The whitespace characters removed by Python's `str.strip()`. -/
def isPySpace (c : Char) : Bool :=
  c = ' ' ∨ c = '\t' ∨ c = '\n' ∨ c = '\r' ∨ c = '\x0b' ∨ c = '\x0c'

/-- Embeds Python's `str.strip()`: drop whitespace from both ends. -/
def pyStrip (s : String) : String :=
  String.mk (((s.toList.dropWhile isPySpace).reverse.dropWhile isPySpace).reverse)

/-- Embeds `slugify`: replace spaces and slashes with underscores. -/
def slugify (s : String) : String :=
  String.mk (s.toList.map fun c => if c = ' ' ∨ c = '/' then '_' else c)

/-- Embeds Python's `str.capitalize()`: first character upper-cased, the rest
lower-cased (ASCII behaviour, which is all the repository uses). -/
def pyCapitalize (s : String) : String :=
  match s.toList with
  | [] => ""
  | c :: rest => String.mk (c.toUpper :: rest.map Char.toLower)

/-- Splits a character list at each occurrence of the separator character,
keeping empty pieces, as Python's `str.split(sep)` does; helper for
`make_label`. -/
def splitChar (sep : Char) : List Char → List String
  | [] => [""]
  | c :: rest =>
    match splitChar sep rest with
    | [] => [""]
    | piece :: pieces =>
      if c = sep then "" :: piece :: pieces
      else String.mk (c :: piece.toList) :: pieces

/-- Embeds `make_label` (with the default separator): split on underscores,
capitalize each piece, rejoin with spaces. -/
def make_label (s : String) : String :=
  " ".intercalate ((splitChar '_' s.toList).map pyCapitalize)

/-- Converts a list of decimal digit characters to a number; `none` when the
list is empty or contains a non-digit.  Helper for `pyInt`. -/
def digitsToNat (cs : List Char) : Option Nat :=
  if cs ≠ [] ∧ cs.all (fun c => c.isDigit) then
    some (cs.foldl (fun n c => n * 10 + (c.toNat - 48)) 0)
  else none

/-- Embeds Python's `int(s)` on strings: optional surrounding whitespace,
optional sign, then decimal digits; `none` embeds the `ValueError` raise. -/
def pyInt (s : String) : Option Int :=
  match (pyStrip s).toList with
  | '-' :: rest => (digitsToNat rest).map (fun n => -(n : Int))
  | '+' :: rest => (digitsToNat rest).map (fun n => (n : Int))
  | cs => (digitsToNat cs).map (fun n => (n : Int))

/-- Embeds `get_date_year`: first four characters of `date`, trimmed; `''`
when the record has no `date`. -/
def get_date_year (obj : Record) : String :=
  match obj.date with
  | some d => pyStrip (d.take 4)
  | none => ""

/-- Embeds `get_eprint_id`: the stringified `eprint_id`, `''` when absent. -/
def get_eprint_id (obj : Record) : String :=
  match obj.eprint_id with
  | some s => s
  | none => ""

/-- Embeds `get_object_type`: the stringified `type`, `''` when absent. -/
def get_object_type (obj : Record) : String :=
  match obj.type with
  | some s => s
  | none => ""

/-- Embeds `has_creator_ids`: iterates `obj['creators']` looking for a
creator with an `id` key.  Subscripting a record without a `creators` key
raises `KeyError`, embedded as the `error` case. -/
def has_creator_ids (obj : Record) : Except String Bool :=
  match obj.creators with
  | none => Except.error "KeyError: creators"
  | some cs => Except.ok (cs.any (fun c => c.id.isSome))

/-- Embeds `get_sort_name` on a group dict: the `sort_name` entry, `''` when
the dict has none. -/
def get_sort_name (o : Group) : String :=
  match o.sort_name with
  | some s => s
  | none => ""

/-- Embeds `get_sort_year` on a group dict: the `year` entry, `''` when the
dict has none. -/
def get_sort_year (o : Group) : String :=
  match o.year with
  | some s => s
  | none => ""

/-- Embeds `get_sort_subject` on a group dict: the `subject_name` entry,
`''` when the dict has none. -/
def get_sort_subject (o : Group) : String :=
  match o.subject_name with
  | some s => s
  | none => ""

/-- Embeds `get_sort_publication` on a group dict.  The source tests
`'publication' in o`; the group dicts built by `aggregate_publication` carry
only `key`, `label`, `count`, `year` and `objects`, so the test is always
false (which also short-circuits past the undefined global `publication` in
the second conjunct) and the function returns `''`. -/
def get_sort_publication (_o : Group) : String :=
  ""

/-- Embeds `get_sort_collection` on a group dict.  The source tests
`'collection' in o`, but the group dicts built by `aggregate_collection`
have no `collection` entry, so the result is always `''`. -/
def get_sort_collection (_o : Group) : String :=
  ""

/-- Embeds `get_sort_event` on a group dict.  The source tests
`'event_title' in o`, but the group dicts built by `aggregate_event` have no
`event_title` entry, so the result is always `''`. -/
def get_sort_event (_o : Group) : String :=
  ""

/-- Embeds `get_sort_issn` on a group dict.  The source tests `'issn' in o`,
but the group dicts built by `aggregate_issn` have no `issn` entry, so the
result is always `''`. -/
def get_sort_issn (_o : Group) : String :=
  ""

/-- Embeds `get_lastmod_date`: first ten characters of `lastmod`, `''` when
the record has no `lastmod`. -/
def get_lastmod_date (o : Record) : String :=
  match o.lastmod with
  | some s => s.take 10
  | none => ""

/-- Embeds `get_sort_lastmod`: the full `lastmod` string, `''` when absent. -/
def get_sort_lastmod (o : Record) : String :=
  match o.lastmod with
  | some s => s
  | none => ""

/-- Embeds `datetime.date`: a calendar date. -/
structure Date where
  year : Nat
  month : Nat
  day : Nat
deriving Repr, DecidableEq

/-- Gregorian leap-year rule, as used by `datetime.date` arithmetic. -/
def isLeap (y : Nat) : Bool :=
  (y % 4 = 0 && y % 100 ≠ 0) || y % 400 = 0

/-- Number of days in a month of the proleptic Gregorian calendar. -/
def daysInMonth (y m : Nat) : Nat :=
  if m = 2 then (if isLeap y then 29 else 28)
  else if m = 4 ∨ m = 6 ∨ m = 9 ∨ m = 11 then 30
  else 31

/-- The day after `d` in the Gregorian calendar. -/
def nextDay (d : Date) : Date :=
  if d.day < daysInMonth d.year d.month then ⟨d.year, d.month, d.day + 1⟩
  else if d.month < 12 then ⟨d.year, d.month + 1, 1⟩
  else ⟨d.year + 1, 1, 1⟩

/-- Embeds `date + timedelta(days = n)` for a non-negative `n`. -/
def addDays (d : Date) : Nat → Date
  | 0 => d
  | n + 1 => addDays (nextDay d) n

/-- Left-pads a decimal string with zeros to the given width; helper for
`Date.isoformat`. -/
def zfill (w : Nat) (s : String) : String :=
  String.mk (List.replicate (w - s.length) '0') ++ s

/-- Embeds `date.isoformat()`: zero-padded `YYYY-MM-DD`. -/
def Date.isoformat (d : Date) : String :=
  zfill 4 (toString d.year) ++ "-" ++ zfill 2 (toString d.month) ++ "-" ++ zfill 2 (toString d.day)

/-- Embeds the body of the inner loop of `aggregate_people` for one creator:
`creator['id']` and `creator['display_name']` raise `KeyError` when absent;
otherwise the people dict is extended exactly as in the source. -/
def peopleCreatorStep (obj : Record) (d : AList) (c : Creator) : Except String AList :=
  match c.id with
  | none => Except.error "KeyError: id"
  | some creator_id =>
    match c.display_name with
    | none => Except.error "KeyError: display_name"
    | some creator_name =>
      Except.ok (insertGroup d creator_id
        { key := creator_id, label := creator_name, count := 0,
          people_id := some creator_id, sort_name := some creator_name,
          objects := [] } obj)

/-- Embeds the body of the outer loop of `aggregate_people` for one record:
records failing `has_creator_ids` are skipped, and the rest have every
creator (not only the identified ones) pushed through `peopleCreatorStep`. -/
def peopleObjStep (d : AList) (obj : Record) : Except String AList :=
  match has_creator_ids obj with
  | Except.error e => Except.error e
  | Except.ok true => (obj.creators.getD []).foldlM (peopleCreatorStep obj) d
  | Except.ok false => Except.ok d

/-- Embeds `Aggregator.aggregate_people`: build the people dict over all
records, then list its values and sort them by `get_sort_name`. -/
def aggregate_people (objs : List Record) : Except String (List Group) :=
  match objs.foldlM peopleObjStep ([] : AList) with
  | Except.error e => Except.error e
  | Except.ok people =>
    Except.ok (pySort (fun a b => pyStrLe (get_sort_name a) (get_sort_name b))
      (people.map Prod.snd))

/-- Embeds the loop body of `aggregate_year` for one record: records without
a `date` are skipped, the rest are grouped under the trimmed 4-character
year. -/
def yearStep (d : AList) (obj : Record) : AList :=
  match obj.date with
  | none => d
  | some dt =>
    let year := pyStrip (dt.take 4)
    insertGroup d year
      { key := year, label := year, count := 0, year := some year, objects := [] } obj

/-- Embeds `Aggregator.aggregate_year`: group by year, then sort by
`get_sort_year` with `reverse = True` (embedded by flipping the
comparison, which preserves the stable order of equal keys). -/
def aggregate_year (objs : List Record) : List Group :=
  pySort (fun a b => pyStrLe (get_sort_year b) (get_sort_year a))
    ((objs.foldl yearStep []).map Prod.snd)

/-- Embeds the loop body of `aggregate_publication` for one record: records
without a `publication` are skipped; the dict is keyed by the raw
publication string while the group's `key` entry is the slugified form. -/
def publicationStep (d : AList) (obj : Record) : AList :=
  match obj.publication with
  | none => d
  | some publication =>
    insertGroup d publication
      { key := slugify publication, label := publication, count := 0,
        year := some (get_date_year obj), objects := [] } obj

/-- Embeds `Aggregator.aggregate_publication`: group by publication, then
sort by `get_sort_publication` (constantly `''`, see that definition). -/
def aggregate_publication (objs : List Record) : List Group :=
  pySort (fun a b => pyStrLe (get_sort_publication a) (get_sort_publication b))
    ((objs.foldl publicationStep []).map Prod.snd)

/-- Embeds the loop body of `aggregate_issn` for one record. -/
def issnStep (d : AList) (obj : Record) : AList :=
  match obj.issn with
  | none => d
  | some issn =>
    insertGroup d issn
      { key := issn, label := issn, count := 0,
        year := some (get_date_year obj), objects := [] } obj

/-- Embeds `Aggregator.aggregate_issn`: group by ISSN, then sort by
`get_sort_issn` (constantly `''`, see that definition). -/
def aggregate_issn (objs : List Record) : List Group :=
  pySort (fun a b => pyStrLe (get_sort_issn a) (get_sort_issn b))
    ((objs.foldl issnStep []).map Prod.snd)

/-- Embeds the loop body of `aggregate_collection` for one record. -/
def collectionStep (d : AList) (obj : Record) : AList :=
  match obj.collection with
  | none => d
  | some collection =>
    insertGroup d collection
      { key := slugify collection, label := collection, count := 0,
        year := some (get_date_year obj), objects := [] } obj

/-- Embeds `Aggregator.aggregate_collection`: group by collection name, then
sort by `get_sort_collection` (constantly `''`, see that definition). -/
def aggregate_collection (objs : List Record) : List Group :=
  pySort (fun a b => pyStrLe (get_sort_collection a) (get_sort_collection b))
    ((objs.foldl collectionStep []).map Prod.snd)

/-- Embeds the loop body of `aggregate_event` for one record: `event_title`
defaults to `''` when absent, so every record lands in some group
(`event_location` and `event_dates` are read by the source but unused). -/
def eventStep (d : AList) (obj : Record) : AList :=
  let event_title :=
    match obj.event_title with
    | some t => t
    | none => ""
  insertGroup d event_title
    { key := slugify event_title, label := event_title, count := 0,
      year := some (get_date_year obj), objects := [] } obj

/-- Embeds `Aggregator.aggregate_event`: group by raw event title, then sort
by `get_sort_event` (constantly `''`, see that definition). -/
def aggregate_event (objs : List Record) : List Group :=
  pySort (fun a b => pyStrLe (get_sort_event a) (get_sort_event b))
    ((objs.foldl eventStep []).map Prod.snd)

/-- Embeds the body of the inner loop of `aggregate_subjects` for one
subject code: the code is resolved through the subject map and unresolved
codes are skipped. -/
def subjectCodeStep (get_subject : String → Option String) (obj : Record)
    (d : AList) (subj : String) : AList :=
  match get_subject subj with
  | none => d
  | some subject_name =>
    insertGroup d subj
      { key := subj, label := subject_name, count := 0,
        subject_id := some subj, subject_name := some subject_name,
        objects := [] } obj

/-- Embeds the loop body of `aggregate_subjects` for one record: each code
in `subjects.items` goes through `subjectCodeStep`. -/
def subjectsStep (get_subject : String → Option String) (d : AList) (obj : Record) : AList :=
  match obj.subjects with
  | none => d
  | some items => items.foldl (subjectCodeStep get_subject obj) d

/-- Embeds `Aggregator.aggregate_subjects`: group by subject code using the
subject-map collaborator, then sort by `get_sort_subject`. -/
def aggregate_subjects (get_subject : String → Option String) (objs : List Record) : List Group :=
  pySort (fun a b => pyStrLe (get_sort_subject a) (get_sort_subject b))
    ((objs.foldl (subjectsStep get_subject) []).map Prod.snd)

/-- Embeds the loop body of `aggregate_ids` for one record: every record is
grouped under `get_eprint_id` (so records without an `eprint_id` share the
`''` key). -/
def idsStep (d : AList) (obj : Record) : AList :=
  let eprint_id := get_eprint_id obj
  insertGroup d eprint_id
    { key := eprint_id, label := eprint_id, eprint_id := some eprint_id,
      count := 0, objects := [] } obj

/-- The value list of the ids dict before sorting (the `ids_list` local of
the source). -/
def idsGroups (objs : List Record) : List Group :=
  (objs.foldl idsStep []).map Prod.snd

/-- Embeds `Aggregator.aggregate_ids`: the sort key `int(x['key'])` is
evaluated for every group, raising `ValueError` (the `error` case) as soon
as some key does not parse as an integer; otherwise the groups are sorted
ascending by that integer. -/
def aggregate_ids (objs : List Record) : Except String (List Group) :=
  let ids_list := idsGroups objs
  if ids_list.all (fun g => (pyInt g.key).isSome) then
    Except.ok (pySort (fun a b => decide ((pyInt a.key).getD 0 ≤ (pyInt b.key).getD 0)) ids_list)
  else
    Except.error "ValueError: invalid literal for int with base 10"

/-- Embeds the loop body of `aggregate_types` for one record: every record
is grouped under `get_object_type` (so records without a `type` share the
`''` key), with the label derived by `make_label`. -/
def typesStep (d : AList) (obj : Record) : AList :=
  let o_type := get_object_type obj
  insertGroup d o_type
    { key := o_type, label := make_label o_type, type := some o_type,
      count := 0, objects := [] } obj

/-- Embeds `Aggregator.aggregate_types`: group by raw type code, then sort
ascending by the `key` entry. -/
def aggregate_types (objs : List Record) : List Group :=
  pySort (fun a b => pyStrLe a.key b.key)
    ((objs.foldl typesStep []).map Prod.snd)

/-- Embeds the loop body of `aggregate_latest` for one record, given the
already-computed `seven_days_ago` cutoff string.  A record whose truncated
`lastmod` is non-empty and `≥` the cutoff reaches the accumulator code: if
its full `lastmod` key is not yet present the source assigns into the
misspelled name `lastest`, raising `NameError` (embedded as `error`); the
other branch subscripts `latest[lastmod]`, raising `KeyError` when that key
is absent. -/
def latestStep (seven_days_ago : String) (latest : AList) (obj : Record) :
    Except String AList :=
  let lastmod := get_lastmod_date obj
  if (lastmod != "") && pyStrLe seven_days_ago lastmod then
    let key := get_sort_lastmod obj
    if containsA latest key then
      if containsA latest lastmod then
        Except.ok (updateA latest lastmod (bump obj))
      else
        Except.error "KeyError"
    else
      Except.error "NameError: name lastest is not defined"
  else
    Except.ok latest

/-- Embeds `Aggregator.aggregate_latest`.  The source computes
`seven_days_ago = (date.today() - timedelta(days = -7)).isoformat()`, and
subtracting a negative timedelta adds seven days, so the cutoff is in fact
`today + 7` days.  The ambient `date.today()` is passed explicitly. -/
def aggregate_latest (objs : List Record) (today : Date) : Except String (List Group) :=
  let seven_days_ago := (addDays today 7).isoformat
  match objs.foldlM (latestStep seven_days_ago) ([] : AList) with
  | Except.error e => Except.error e
  | Except.ok latest =>
    Except.ok (pySort (fun a b => pyStrLe b.key a.key) (latest.map Prod.snd))

/-!  The contribution layer: every facet builder is a left fold of
`insertGroup` steps over a list of contributions, one contribution per
(record, dict-key) pair that the facet derives from the input.  The lemmas
below characterize the resulting association list completely. -/

/-- One grouping contribution: the dict key used for grouping, the fresh
group inserted when that key is absent, and the record appended. -/
structure Contribution where
  dkey : String
  init : Group
  obj : Record

/-- Applies one contribution to the dict, exactly as the facet loop bodies
do through `insertGroup`. -/
def applyContrib (d : AList) (c : Contribution) : AList :=
  insertGroup d c.dkey c.init c.obj

/-- The dict built from a list of contributions. -/
def buildDict (cs : List Contribution) : AList :=
  cs.foldl applyContrib []

/-- A group bumped by a whole list of records at once; `bump` iterated. -/
def bumpMany (g : Group) (os : List Record) : Group :=
  { g with count := g.count + os.length, objects := g.objects ++ os }

/-!  Per-facet contribution lists, and bridges identifying each facet's
loop fold with the generic contribution fold. -/

/-- The contributions of `aggregate_year`: one per record with a `date`. -/
def yearContribs (objs : List Record) : List Contribution :=
  objs.filterMap (fun obj =>
    match obj.date with
    | none => none
    | some dt =>
      some ⟨pyStrip (dt.take 4),
        { key := pyStrip (dt.take 4), label := pyStrip (dt.take 4), count := 0,
          year := some (pyStrip (dt.take 4)), objects := [] }, obj⟩)

/-- The contributions of `aggregate_publication`: one per record with a
`publication`, keyed by the raw publication string. -/
def publicationContribs (objs : List Record) : List Contribution :=
  objs.filterMap (fun obj =>
    match obj.publication with
    | none => none
    | some publication =>
      some ⟨publication,
        { key := slugify publication, label := publication, count := 0,
          year := some (get_date_year obj), objects := [] }, obj⟩)

/-- The contributions of `aggregate_issn`: one per record with an `issn`. -/
def issnContribs (objs : List Record) : List Contribution :=
  objs.filterMap (fun obj =>
    match obj.issn with
    | none => none
    | some issn =>
      some ⟨issn,
        { key := issn, label := issn, count := 0,
          year := some (get_date_year obj), objects := [] }, obj⟩)

/-- The contributions of `aggregate_collection`: one per record with a
`collection`, keyed by the raw collection string. -/
def collectionContribs (objs : List Record) : List Contribution :=
  objs.filterMap (fun obj =>
    match obj.collection with
    | none => none
    | some collection =>
      some ⟨collection,
        { key := slugify collection, label := collection, count := 0,
          year := some (get_date_year obj), objects := [] }, obj⟩)

/-- The raw event title of a record, defaulting to the empty string. -/
def eventTitleOf (obj : Record) : String :=
  match obj.event_title with
  | some t => t
  | none => ""

/-- The contributions of `aggregate_event`: exactly one per record, keyed by
the raw (possibly empty) event title. -/
def eventContribs (objs : List Record) : List Contribution :=
  objs.map (fun obj =>
    ⟨eventTitleOf obj,
      { key := slugify (eventTitleOf obj), label := eventTitleOf obj, count := 0,
        year := some (get_date_year obj), objects := [] }, obj⟩)

/-- The contributions of one record's subject list. -/
def subjectContribs (get_subject : String → Option String) (obj : Record)
    (items : List String) : List Contribution :=
  items.filterMap (fun subj =>
    match get_subject subj with
    | none => none
    | some subject_name =>
      some ⟨subj,
        { key := subj, label := subject_name, count := 0,
          subject_id := some subj, subject_name := some subject_name,
          objects := [] }, obj⟩)

/-- The contributions of `aggregate_subjects`: one per resolved subject code
of each record with a `subjects` list. -/
def subjectsContribs (get_subject : String → Option String) (objs : List Record) :
    List Contribution :=
  objs.flatMap (fun obj =>
    match obj.subjects with
    | none => []
    | some items => subjectContribs get_subject obj items)

/-- The contributions of `aggregate_ids`: exactly one per record, keyed by
`get_eprint_id` (`''` for records without an `eprint_id`). -/
def idsContribs (objs : List Record) : List Contribution :=
  objs.map (fun obj =>
    ⟨get_eprint_id obj,
      { key := get_eprint_id obj, label := get_eprint_id obj,
        eprint_id := some (get_eprint_id obj), count := 0, objects := [] }, obj⟩)

/-- The contributions of `aggregate_types`: exactly one per record, keyed by
`get_object_type` (`''` for records without a `type`). -/
def typesContribs (objs : List Record) : List Contribution :=
  objs.map (fun obj =>
    ⟨get_object_type obj,
      { key := get_object_type obj, label := make_label (get_object_type obj),
        type := some (get_object_type obj), count := 0, objects := [] }, obj⟩)

/-- The contribution of one creator in `aggregate_people`, as built on the
success path (where `id` and `display_name` are both present). -/
def creatorContrib (obj : Record) (c : Creator) : Contribution :=
  ⟨c.id.getD "",
    { key := c.id.getD "", label := c.display_name.getD "", count := 0,
      people_id := some (c.id.getD ""), sort_name := some (c.display_name.getD ""),
      objects := [] }, obj⟩

/-- The contributions of `aggregate_people` on the success path: all
creators of each record that passes `has_creator_ids`. -/
def peopleContribs (objs : List Record) : List Contribution :=
  objs.flatMap (fun obj =>
    match obj.creators with
    | none => []
    | some cs =>
      match cs.any (fun c => c.id.isSome) with
      | true => cs.map (creatorContrib obj)
      | false => [])

/-!  Behaviour of `aggregate_latest`. -/

/-- The window test of `latestStep`, as a predicate on one record. -/
def passesLatest (seven_days_ago : String) (obj : Record) : Bool :=
  (get_lastmod_date obj != "") && pyStrLe seven_days_ago (get_lastmod_date obj)

/-!  Generic lemmas about `pySort`. -/

theorem mem_insertLe {α : Type} (le : α → α → Bool) (a : α) (l : List α) (x : α) :
    x ∈ insertLe le a l ↔ x = a ∨ x ∈ l := by
  induction l with
  | nil => simp [insertLe]
  | cons b bs ih =>
    by_cases h : (le b a && !le a b) = true
    · simp only [insertLe, if_pos h, List.mem_cons, ih]
      tauto
    · simp only [insertLe, if_neg h, List.mem_cons]

theorem insertLe_perm {α : Type} (le : α → α → Bool) (a : α) (l : List α) :
    (insertLe le a l).Perm (a :: l) := by
  induction l with
  | nil => simp [insertLe]
  | cons b bs ih =>
    by_cases h : (le b a && !le a b) = true
    · simp only [insertLe, if_pos h]
      exact (ih.cons b).trans (List.Perm.swap a b bs)
    · simp only [insertLe, if_neg h]
      exact List.Perm.refl _

theorem pySort_perm {α : Type} (le : α → α → Bool) (l : List α) :
    (pySort le l).Perm l := by
  induction l with
  | nil => simp [pySort]
  | cons a as ih => exact (insertLe_perm le a (pySort le as)).trans (ih.cons a)

theorem pairwise_insertLe {α : Type} (le : α → α → Bool)
    (htot : ∀ a b, le a b = true ∨ le b a = true)
    (htr : ∀ a b c, le a b = true → le b c = true → le a c = true)
    (a : α) (l : List α) (h : l.Pairwise fun x y => le x y = true) :
    (insertLe le a l).Pairwise fun x y => le x y = true := by
  induction l with
  | nil => simp [insertLe]
  | cons b bs ih =>
    rcases List.pairwise_cons.mp h with ⟨hb, hbs⟩
    by_cases hc : (le b a && !le a b) = true
    · simp only [insertLe, if_pos hc]
      refine List.pairwise_cons.mpr ⟨?_, ih hbs⟩
      intro x hx
      rcases (mem_insertLe le a bs x).mp hx with rfl | hx
      · exact (Bool.and_eq_true _ _ |>.mp hc).1
      · exact hb x hx
    · simp only [insertLe, if_neg hc]
      have hab : le a b = true := by
        rcases htot a b with h1 | h1
        · exact h1
        · by_cases h2 : le a b = true
          · exact h2
          · exact absurd (by simp [h1, h2]) hc
      refine List.pairwise_cons.mpr ⟨?_, h⟩
      intro x hx
      rcases List.mem_cons.mp hx with rfl | hx
      · exact hab
      · exact htr a b x hab (hb x hx)

theorem pySort_pairwise {α : Type} (le : α → α → Bool)
    (htot : ∀ a b, le a b = true ∨ le b a = true)
    (htr : ∀ a b c, le a b = true → le b c = true → le a c = true)
    (l : List α) : (pySort le l).Pairwise fun x y => le x y = true := by
  induction l with
  | nil => simp [pySort]
  | cons a as ih => exact pairwise_insertLe le htot htr a (pySort le as) ih

theorem pySort_eq_of_pairwise {α : Type} (le : α → α → Bool) (l : List α)
    (h : l.Pairwise fun x y => le x y = true) : pySort le l = l := by
  induction l with
  | nil => rfl
  | cons a as ih =>
    rcases List.pairwise_cons.mp h with ⟨ha, has⟩
    have : pySort le (a :: as) = insertLe le a as := by
      simp [pySort, ih has]
    rw [this]
    cases as with
    | nil => rfl
    | cons b bs =>
      have hab : le a b = true := ha b (List.mem_cons_self b bs)
      simp [insertLe, hab]

theorem bumpMany_nil (g : Group) : bumpMany g [] = g := by
  simp [bumpMany]

theorem bumpMany_bump (g : Group) (o : Record) (os : List Record) :
    bumpMany (bump o g) os = bumpMany g (o :: os) := by
  simp [bumpMany, bump, Nat.add_assoc, Nat.add_comm 1]

theorem lookupA_eq_none_iff (d : AList) (k : String) :
    lookupA d k = none ↔ k ∉ d.map Prod.fst := by
  induction d with
  | nil => simp [lookupA]
  | cons p rest ih =>
    by_cases h : p.1 = k
    · simp [lookupA, h]
    · simp [lookupA, h, ih, Ne.symm h]

theorem lookupA_some_mem {d : AList} {k : String} {g : Group}
    (h : lookupA d k = some g) : (k, g) ∈ d := by
  induction d with
  | nil => simp [lookupA] at h
  | cons p rest ih =>
    by_cases hp : p.1 = k
    · simp only [lookupA, if_pos hp, Option.some.injEq] at h
      have : (k, g) = p := by
        cases p
        simp_all
      rw [this]
      exact List.mem_cons_self _ _
    · simp only [lookupA, if_neg hp] at h
      exact List.mem_cons_of_mem _ (ih h)

theorem mem_lookupA {d : AList} {k : String} {g : Group}
    (hnd : (d.map Prod.fst).Nodup) (h : (k, g) ∈ d) : lookupA d k = some g := by
  induction d with
  | nil => simp at h
  | cons p rest ih =>
    rcases List.mem_cons.mp h with rfl | hm
    · simp [lookupA]
    · have hk : p.1 ≠ k := by
        intro he
        have : k ∈ rest.map Prod.fst := List.mem_map.mpr ⟨(k, g), hm, rfl⟩
        rw [List.map_cons, List.nodup_cons, he] at hnd
        exact hnd.1 this
      simp only [lookupA, if_neg hk]
      exact ih (List.nodup_cons.mp (by simpa using hnd)).2 hm

theorem lookupA_updateA_self (d : AList) (k : String) (f : Group → Group) :
    lookupA (updateA d k f) k = (lookupA d k).map f := by
  induction d with
  | nil => simp [lookupA, updateA]
  | cons p rest ih =>
    by_cases h : p.1 = k
    · simp [lookupA, updateA, h]
    · simp [lookupA, updateA, h, ih]

theorem lookupA_updateA_ne (d : AList) (k k' : String) (f : Group → Group)
    (h : k' ≠ k) : lookupA (updateA d k f) k' = lookupA d k' := by
  induction d with
  | nil => simp [updateA]
  | cons p rest ih =>
    by_cases hp : p.1 = k
    · simp [lookupA, updateA, hp, Ne.symm h]
    · by_cases hp' : p.1 = k'
      · simp [lookupA, updateA, hp, hp', h]
      · simp [lookupA, updateA, hp, hp', ih]

theorem lookupA_append (d e : AList) (k : String) :
    lookupA (d ++ e) k =
      match lookupA d k with
      | some g => some g
      | none => lookupA e k := by
  induction d with
  | nil => simp [lookupA]
  | cons p rest ih =>
    by_cases h : p.1 = k
    · simp [lookupA, h]
    · simp [lookupA, h, ih]

theorem keysA_updateA (d : AList) (k : String) (f : Group → Group) :
    (updateA d k f).map Prod.fst = d.map Prod.fst := by
  induction d with
  | nil => rfl
  | cons p rest ih =>
    by_cases h : p.1 = k
    · simp [updateA, h]
    · simp [updateA, h, ih]

theorem lookupA_insertGroup_self (d : AList) (k : String) (mk : Group) (obj : Record) :
    lookupA (insertGroup d k mk obj) k = some (bump obj ((lookupA d k).getD mk)) := by
  unfold insertGroup containsA
  cases h : lookupA d k with
  | some g => simp [h, lookupA_updateA_self]
  | none =>
    simp only [h, Option.isSome_none, Bool.false_eq_true, if_false, Option.getD_none]
    rw [lookupA_updateA_self, lookupA_append, h]
    simp [lookupA]

theorem lookupA_insertGroup_ne (d : AList) (k k' : String) (mk : Group) (obj : Record)
    (h : k' ≠ k) : lookupA (insertGroup d k mk obj) k' = lookupA d k' := by
  unfold insertGroup containsA
  cases hc : lookupA d k with
  | some g => simp [hc, lookupA_updateA_ne _ _ _ _ h]
  | none =>
    simp only [hc, Option.isSome_none, Bool.false_eq_true, if_false]
    rw [lookupA_updateA_ne _ _ _ _ h, lookupA_append]
    cases hk' : lookupA d k' with
    | some g => rfl
    | none => simp [lookupA, Ne.symm h]

theorem keysA_insertGroup (d : AList) (k : String) (mk : Group) (obj : Record) :
    (insertGroup d k mk obj).map Prod.fst =
      if containsA d k then d.map Prod.fst else d.map Prod.fst ++ [k] := by
  unfold insertGroup
  by_cases h : containsA d k
  · simp [h, keysA_updateA]
  · simp [h, keysA_updateA]

theorem nodup_keysA_insertGroup (d : AList) (k : String) (mk : Group) (obj : Record)
    (h : (d.map Prod.fst).Nodup) :
    ((insertGroup d k mk obj).map Prod.fst).Nodup := by
  rw [keysA_insertGroup]
  by_cases hc : containsA d k
  · simpa [hc] using h
  · have hk : k ∉ d.map Prod.fst := by
      apply (lookupA_eq_none_iff d k).mp
      unfold containsA at hc
      cases hl : lookupA d k with
      | some g => rw [hl] at hc; simp at hc
      | none => rfl
    simp [hc, List.nodup_append, h, hk]

theorem nodup_keysA_fold (cs : List Contribution) (d : AList)
    (h : (d.map Prod.fst).Nodup) :
    ((cs.foldl applyContrib d).map Prod.fst).Nodup := by
  induction cs generalizing d with
  | nil => simpa using h
  | cons c rest ih =>
    exact ih _ (nodup_keysA_insertGroup _ _ _ _ h)

theorem fold_lookup_some (cs : List Contribution) (d : AList) (k : String) (g : Group)
    (h : lookupA d k = some g) :
    lookupA (cs.foldl applyContrib d) k =
      some (bumpMany g ((cs.filter (fun c => c.dkey == k)).map (fun c => c.obj))) := by
  induction cs generalizing d g with
  | nil => simpa [bumpMany_nil] using h
  | cons c rest ih =>
    by_cases hk : c.dkey = k
    · have h1 : lookupA (applyContrib d c) k = some (bump c.obj g) := by
        unfold applyContrib
        rw [hk, lookupA_insertGroup_self, h]
        rfl
      have h2 := ih (applyContrib d c) (bump c.obj g) h1
      rw [List.foldl_cons, h2]
      simp [hk, bumpMany_bump]
    · have h1 : lookupA (applyContrib d c) k = some g := by
        unfold applyContrib
        rw [lookupA_insertGroup_ne _ _ _ _ _ (Ne.symm hk), h]
      have h2 := ih (applyContrib d c) g h1
      rw [List.foldl_cons, h2]
      simp [hk]

theorem fold_lookup_none (cs : List Contribution) (d : AList) (k : String)
    (h : lookupA d k = none) :
    lookupA (cs.foldl applyContrib d) k =
      ((cs.filter (fun c => c.dkey == k)).head?).map
        (fun c₀ => bumpMany c₀.init ((cs.filter (fun c => c.dkey == k)).map (fun c => c.obj))) := by
  induction cs generalizing d with
  | nil => simpa using h
  | cons c rest ih =>
    by_cases hk : c.dkey = k
    · have h1 : lookupA (applyContrib d c) k = some (bump c.obj c.init) := by
        unfold applyContrib
        rw [hk, lookupA_insertGroup_self, h]
        rfl
      have h2 := fold_lookup_some rest (applyContrib d c) k (bump c.obj c.init) h1
      rw [List.foldl_cons, h2]
      simp [hk, bumpMany_bump]
    · have h1 : lookupA (applyContrib d c) k = none := by
        unfold applyContrib
        rw [lookupA_insertGroup_ne _ _ _ _ _ (Ne.symm hk), h]
      have h2 := ih (applyContrib d c) h1
      rw [List.foldl_cons, h2]
      simp [hk]

/-- Full characterization of a `buildDict` lookup: the group under key `k`
is the initial group of the first contribution with that key, bumped with
the records of all contributions with that key, in order. -/
theorem lookup_buildDict (cs : List Contribution) (k : String) :
    lookupA (buildDict cs) k =
      ((cs.filter (fun c => c.dkey == k)).head?).map
        (fun c₀ => bumpMany c₀.init ((cs.filter (fun c => c.dkey == k)).map (fun c => c.obj))) :=
  fold_lookup_none cs [] k rfl

theorem nodup_keysA_buildDict (cs : List Contribution) :
    ((buildDict cs).map Prod.fst).Nodup :=
  nodup_keysA_fold cs [] (by simp)

theorem mem_buildDict_iff_lookup {cs : List Contribution} {k : String} {g : Group} :
    (k, g) ∈ buildDict cs ↔ lookupA (buildDict cs) k = some g :=
  ⟨mem_lookupA (nodup_keysA_buildDict cs), lookupA_some_mem⟩

theorem mem_values_iff {d : AList} {g : Group} :
    g ∈ d.map Prod.snd ↔ ∃ k, (k, g) ∈ d := by
  rw [List.mem_map]
  constructor
  · rintro ⟨⟨k, g'⟩, hm, rfl⟩
    exact ⟨k, hm⟩
  · rintro ⟨k, hm⟩
    exact ⟨(k, g), hm, rfl⟩

/-- Unpacked form of `lookup_buildDict` for a dict entry. -/
theorem buildDict_entry {cs : List Contribution} {k : String} {g : Group}
    (h : (k, g) ∈ buildDict cs) :
    ∃ c₀, c₀ ∈ cs ∧ c₀.dkey = k ∧
      (cs.filter (fun c => c.dkey == k)).head? = some c₀ ∧
      g = bumpMany c₀.init ((cs.filter (fun c => c.dkey == k)).map (fun c => c.obj)) := by
  have hl := mem_buildDict_iff_lookup.mp h
  rw [lookup_buildDict] at hl
  cases hh : (cs.filter (fun c => c.dkey == k)).head? with
  | none => rw [hh] at hl; simp at hl
  | some c₀ =>
    rw [hh] at hl
    have hl2 : bumpMany c₀.init ((cs.filter (fun c => c.dkey == k)).map (fun c => c.obj)) = g :=
      Option.some.inj hl
    have hmem : c₀ ∈ cs.filter (fun c => c.dkey == k) := List.mem_of_mem_head? hh
    have h1 : c₀ ∈ cs := List.mem_of_mem_filter hmem
    have h2 : c₀.dkey = k := by
      have := List.of_mem_filter hmem
      simpa using this
    exact ⟨c₀, h1, h2, rfl, hl2.symm⟩

/-- In every `buildDict` entry built from fresh initial groups, `count`
equals the length of `objects`. -/
theorem buildDict_count_len {cs : List Contribution}
    (hinit : ∀ c ∈ cs, c.init.count = 0 ∧ c.init.objects = [])
    {k : String} {g : Group} (h : (k, g) ∈ buildDict cs) :
    g.count = g.objects.length := by
  rcases buildDict_entry h with ⟨c₀, hc₀, _, _, rfl⟩
  rcases hinit c₀ hc₀ with ⟨h1, h2⟩
  simp [bumpMany, h1, h2]

/-- The `objects` of a `buildDict` entry are exactly the records of the
contributions with that key, in order. -/
theorem buildDict_objects {cs : List Contribution}
    (hinit : ∀ c ∈ cs, c.init.objects = [])
    {k : String} {g : Group} (h : (k, g) ∈ buildDict cs) :
    g.objects = (cs.filter (fun c => c.dkey == k)).map (fun c => c.obj) := by
  rcases buildDict_entry h with ⟨c₀, hc₀, _, _, rfl⟩
  simp [bumpMany, hinit c₀ hc₀]

/-- A projection that agrees with the dict key on every initial group and is
unchanged by bumping agrees with the dict key on every entry. -/
theorem buildDict_proj {cs : List Contribution} (f : Group → String)
    (hf : ∀ c ∈ cs, f c.init = c.dkey)
    (hbump : ∀ g os, f (bumpMany g os) = f g)
    {k : String} {g : Group} (h : (k, g) ∈ buildDict cs) : f g = k := by
  rcases buildDict_entry h with ⟨c₀, hc₀, hk, _, rfl⟩
  rw [hbump, hf c₀ hc₀, hk]

/-- The projections of the value list of a `buildDict` are exactly its keys,
hence pairwise distinct, whenever the projection mirrors the dict key. -/
theorem buildDict_values_proj_nodup (cs : List Contribution) (f : Group → String)
    (hf : ∀ c ∈ cs, f c.init = c.dkey)
    (hbump : ∀ g os, f (bumpMany g os) = f g) :
    (((buildDict cs).map Prod.snd).map f).Nodup := by
  have he : ((buildDict cs).map Prod.snd).map f = (buildDict cs).map Prod.fst := by
    rw [List.map_map]
    apply List.map_congr_left
    intro p hp
    exact buildDict_proj f hf hbump (by simpa using hp)
  rw [he]
  exact nodup_keysA_buildDict cs

/-- Every record of a fresh lookup entry comes from a contribution with the
entry's key. -/
theorem buildDict_obj_mem {cs : List Contribution}
    (hinit : ∀ c ∈ cs, c.init.objects = [])
    {k : String} {g : Group} (h : (k, g) ∈ buildDict cs)
    {o : Record} (ho : o ∈ g.objects) : ∃ c ∈ cs, c.dkey = k ∧ c.obj = o := by
  rw [buildDict_objects hinit h] at ho
  rcases List.mem_map.mp ho with ⟨c, hc, rfl⟩
  have h1 : c ∈ cs := List.mem_of_mem_filter hc
  have h2 : c.dkey = k := by simpa using List.of_mem_filter hc
  exact ⟨c, h1, h2, rfl⟩

/-- A contribution's record ends up in the entry under the contribution's
key. -/
theorem buildDict_contrib_mem {cs : List Contribution} {c : Contribution} (hc : c ∈ cs) :
    ∃ g, (c.dkey, g) ∈ buildDict cs ∧ c.obj ∈ g.objects := by
  have hfc : c ∈ cs.filter (fun x => x.dkey == c.dkey) :=
    List.mem_filter.mpr ⟨hc, by simp⟩
  have hne : cs.filter (fun x => x.dkey == c.dkey) ≠ [] :=
    List.ne_nil_of_mem hfc
  cases hh : (cs.filter (fun x => x.dkey == c.dkey)).head? with
  | none => exact absurd (List.head?_eq_none_iff.mp hh) hne
  | some c₀ =>
    refine ⟨bumpMany c₀.init ((cs.filter (fun x => x.dkey == c.dkey)).map (fun x => x.obj)), ?_, ?_⟩
    · apply mem_buildDict_iff_lookup.mpr
      rw [lookup_buildDict, hh]
      rfl
    · simp only [bumpMany]
      apply List.mem_append_right
      exact List.mem_map.mpr ⟨c, hfc, rfl⟩

/-- Sum of the counts after a fold of fresh-group contributions: one per
contribution. -/
theorem sum_counts_updateA_bump {d : AList} {k : String} {g : Group} (o : Record)
    (h : lookupA d k = some g) :
    ((updateA d k (bump o)).map (fun p => p.2.count)).sum =
      (d.map (fun p => p.2.count)).sum + 1 := by
  induction d with
  | nil => simp [lookupA] at h
  | cons p rest ih =>
    by_cases hp : p.1 = k
    · simp only [lookupA, if_pos hp] at h
      simp [updateA, hp, bump]
      omega
    · simp only [lookupA, if_neg hp] at h
      simp [updateA, hp, ih h]
      omega

theorem sum_counts_insertGroup {d : AList} {k : String} {mk : Group} {obj : Record}
    (hmk : mk.count = 0) :
    ((insertGroup d k mk obj).map (fun p => p.2.count)).sum =
      (d.map (fun p => p.2.count)).sum + 1 := by
  unfold insertGroup containsA
  cases h : lookupA d k with
  | some g =>
    simp only [h, Option.isSome_some, if_true]
    exact sum_counts_updateA_bump obj h
  | none =>
    simp only [h, Option.isSome_none, Bool.false_eq_true, if_false]
    have hl : lookupA (d ++ [(k, mk)]) k = some mk := by
      rw [lookupA_append, h]
      simp [lookupA]
    rw [sum_counts_updateA_bump obj hl]
    simp [hmk]

theorem sum_counts_fold (cs : List Contribution) (d : AList)
    (hinit : ∀ c ∈ cs, c.init.count = 0) :
    ((cs.foldl applyContrib d).map (fun p => p.2.count)).sum =
      (d.map (fun p => p.2.count)).sum + cs.length := by
  induction cs generalizing d with
  | nil => simp
  | cons c rest ih =>
    have h1 := ih (applyContrib d c) (fun x hx => hinit x (List.mem_cons_of_mem _ hx))
    rw [List.foldl_cons, h1]
    unfold applyContrib
    rw [sum_counts_insertGroup (hinit c (List.mem_cons_self _ _))]
    simp
    omega

/-- Errors are absorbing for `foldlM` over `Except`: if some list element
fails at every accumulator state, the whole fold fails. -/
theorem foldlM_error_absorb {α β : Type} (step : β → α → Except String β)
    {l : List α} {x : α} (hm : x ∈ l)
    (herr : ∀ st, ∃ e, step st x = Except.error e) :
    ∀ d, ∃ e, l.foldlM step d = Except.error e := by
  induction l with
  | nil => simp at hm
  | cons a rest ih =>
    intro d
    rcases List.mem_cons.mp hm with rfl | hm'
    · rcases herr d with ⟨e, he⟩
      refine ⟨e, ?_⟩
      rw [List.foldlM_cons, he]
      rfl
    · cases ha : step d a with
      | error e =>
        refine ⟨e, ?_⟩
        rw [List.foldlM_cons, ha]
        rfl
      | ok d₁ =>
        rcases ih hm' d₁ with ⟨e, he⟩
        refine ⟨e, ?_⟩
        rw [List.foldlM_cons, ha]
        exact he

theorem mem_pySort {α : Type} (le : α → α → Bool) (l : List α) (x : α) :
    x ∈ pySort le l ↔ x ∈ l :=
  (pySort_perm le l).mem_iff

theorem year_fold_eq (objs : List Record) (d : AList) :
    objs.foldl yearStep d = (yearContribs objs).foldl applyContrib d := by
  induction objs generalizing d with
  | nil => rfl
  | cons obj rest ih =>
    cases h : obj.date with
    | none =>
      simp only [List.foldl_cons, yearStep, h, yearContribs, List.filterMap_cons, ih]
    | some dt =>
      simp only [List.foldl_cons, yearStep, h, yearContribs, List.filterMap_cons, ih,
        List.foldl_cons, applyContrib]

theorem publication_fold_eq (objs : List Record) (d : AList) :
    objs.foldl publicationStep d = (publicationContribs objs).foldl applyContrib d := by
  induction objs generalizing d with
  | nil => rfl
  | cons obj rest ih =>
    cases h : obj.publication with
    | none =>
      simp only [List.foldl_cons, publicationStep, h, publicationContribs,
        List.filterMap_cons, ih]
    | some publication =>
      simp only [List.foldl_cons, publicationStep, h, publicationContribs,
        List.filterMap_cons, ih, List.foldl_cons, applyContrib]

theorem issn_fold_eq (objs : List Record) (d : AList) :
    objs.foldl issnStep d = (issnContribs objs).foldl applyContrib d := by
  induction objs generalizing d with
  | nil => rfl
  | cons obj rest ih =>
    cases h : obj.issn with
    | none =>
      simp only [List.foldl_cons, issnStep, h, issnContribs, List.filterMap_cons, ih]
    | some issn =>
      simp only [List.foldl_cons, issnStep, h, issnContribs, List.filterMap_cons, ih,
        List.foldl_cons, applyContrib]

theorem collection_fold_eq (objs : List Record) (d : AList) :
    objs.foldl collectionStep d = (collectionContribs objs).foldl applyContrib d := by
  induction objs generalizing d with
  | nil => rfl
  | cons obj rest ih =>
    cases h : obj.collection with
    | none =>
      simp only [List.foldl_cons, collectionStep, h, collectionContribs,
        List.filterMap_cons, ih]
    | some collection =>
      simp only [List.foldl_cons, collectionStep, h, collectionContribs,
        List.filterMap_cons, ih, List.foldl_cons, applyContrib]

theorem event_fold_eq (objs : List Record) (d : AList) :
    objs.foldl eventStep d = (eventContribs objs).foldl applyContrib d := by
  induction objs generalizing d with
  | nil => rfl
  | cons obj rest ih =>
    simp only [List.foldl_cons, eventStep, eventContribs, List.map_cons, ih,
      List.foldl_cons, applyContrib, eventTitleOf]

theorem subjectCode_fold_eq (get_subject : String → Option String) (obj : Record)
    (items : List String) (d : AList) :
    items.foldl (subjectCodeStep get_subject obj) d =
      (subjectContribs get_subject obj items).foldl applyContrib d := by
  induction items generalizing d with
  | nil => rfl
  | cons subj rest ih =>
    cases h : get_subject subj with
    | none =>
      simp only [List.foldl_cons, subjectCodeStep, h, subjectContribs,
        List.filterMap_cons, ih]
    | some subject_name =>
      simp only [List.foldl_cons, subjectCodeStep, h, subjectContribs,
        List.filterMap_cons, ih, List.foldl_cons, applyContrib]

theorem subjects_fold_eq (get_subject : String → Option String) (objs : List Record)
    (d : AList) :
    objs.foldl (subjectsStep get_subject) d =
      (subjectsContribs get_subject objs).foldl applyContrib d := by
  induction objs generalizing d with
  | nil => rfl
  | cons obj rest ih =>
    cases h : obj.subjects with
    | none =>
      simp only [List.foldl_cons, subjectsStep, h, subjectsContribs, List.flatMap_cons,
        List.nil_append, ih]
    | some items =>
      simp only [List.foldl_cons, subjectsStep, h, subjectsContribs, List.flatMap_cons,
        ih, List.foldl_append, subjectCode_fold_eq]

theorem ids_fold_eq (objs : List Record) (d : AList) :
    objs.foldl idsStep d = (idsContribs objs).foldl applyContrib d := by
  induction objs generalizing d with
  | nil => rfl
  | cons obj rest ih =>
    simp only [List.foldl_cons, idsStep, idsContribs, List.map_cons, ih,
      List.foldl_cons, applyContrib]

theorem types_fold_eq (objs : List Record) (d : AList) :
    objs.foldl typesStep d = (typesContribs objs).foldl applyContrib d := by
  induction objs generalizing d with
  | nil => rfl
  | cons obj rest ih =>
    simp only [List.foldl_cons, typesStep, typesContribs, List.map_cons, ih,
      List.foldl_cons, applyContrib]

theorem peopleCreator_fold_ok {obj : Record} {cs : List Creator} {d d' : AList}
    (h : cs.foldlM (peopleCreatorStep obj) d = Except.ok d') :
    d' = (cs.map (creatorContrib obj)).foldl applyContrib d := by
  induction cs generalizing d with
  | nil =>
    simp only [List.foldlM_nil] at h
    cases h
    rfl
  | cons c rest ih =>
    rw [List.foldlM_cons] at h
    cases hid : c.id with
    | none =>
      rw [peopleCreatorStep, hid] at h
      exact Except.noConfusion h
    | some creator_id =>
      cases hname : c.display_name with
      | none =>
        rw [peopleCreatorStep, hid, hname] at h
        exact Except.noConfusion h
      | some creator_name =>
        rw [peopleCreatorStep, hid, hname] at h
        have h2 : rest.foldlM (peopleCreatorStep obj)
            (insertGroup d creator_id
              { key := creator_id, label := creator_name, count := 0,
                people_id := some creator_id, sort_name := some creator_name,
                objects := [] } obj) = Except.ok d' := h
        rw [ih h2]
        simp only [List.map_cons, List.foldl_cons, applyContrib, creatorContrib, hid, hname]
        rfl

theorem people_fold_ok {objs : List Record} {d d' : AList}
    (h : objs.foldlM peopleObjStep d = Except.ok d') :
    d' = (peopleContribs objs).foldl applyContrib d := by
  induction objs generalizing d with
  | nil =>
    simp only [List.foldlM_nil] at h
    cases h
    rfl
  | cons obj rest ih =>
    rw [List.foldlM_cons] at h
    cases hcs : obj.creators with
    | none =>
      rw [peopleObjStep, has_creator_ids, hcs] at h
      exact Except.noConfusion h
    | some cs =>
      cases hany : cs.any (fun c => c.id.isSome) with
      | true =>
        rw [peopleObjStep, has_creator_ids, hcs] at h
        simp only [hany, Option.getD_some] at h
        cases hin : cs.foldlM (peopleCreatorStep obj) d with
        | error e =>
          rw [hin] at h
          exact Except.noConfusion h
        | ok d₁ =>
          rw [hin] at h
          have h2 : rest.foldlM peopleObjStep d₁ = Except.ok d' := h
          rw [ih h2, peopleCreator_fold_ok hin]
          simp only [peopleContribs, List.flatMap_cons, hcs, hany, List.foldl_append]
      | false =>
        rw [peopleObjStep, has_creator_ids, hcs] at h
        simp only [hany] at h
        have h2 : rest.foldlM peopleObjStep d = Except.ok d' := h
        rw [ih h2]
        simp only [peopleContribs, List.flatMap_cons, hcs, hany, List.nil_append]

theorem latestStep_skip {t : String} {obj : Record}
    (h : passesLatest t obj = false) (d : AList) :
    latestStep t d obj = Except.ok d := by
  unfold latestStep
  unfold passesLatest at h
  simp only [h]
  rfl

theorem latestStep_err {t : String} {obj : Record}
    (h : passesLatest t obj = true) :
    latestStep t [] obj = Except.error "NameError: name lastest is not defined" := by
  unfold latestStep
  unfold passesLatest at h
  simp only [h]
  rfl

theorem latest_fold_ok {t : String} {objs : List Record}
    (h : ∀ obj ∈ objs, passesLatest t obj = false) :
    objs.foldlM (latestStep t) ([] : AList) = Except.ok [] := by
  induction objs with
  | nil => rfl
  | cons obj rest ih =>
    rw [List.foldlM_cons, latestStep_skip (h obj (List.mem_cons_self _ _))]
    exact ih (fun o ho => h o (List.mem_cons_of_mem _ ho))

theorem latest_fold_err {t : String} {objs : List Record} {obj : Record}
    (hm : obj ∈ objs) (hp : passesLatest t obj = true) :
    objs.foldlM (latestStep t) ([] : AList) =
      Except.error "NameError: name lastest is not defined" := by
  induction objs with
  | nil => cases hm
  | cons a rest ih =>
    cases hpa : passesLatest t a with
    | true =>
      rw [List.foldlM_cons, latestStep_err hpa]
      rfl
    | false =>
      have hobj : obj ∈ rest := by
        rcases List.mem_cons.mp hm with rfl | h'
        · rw [hp] at hpa
          exact Bool.noConfusion hpa
        · exact h'
      rw [List.foldlM_cons, latestStep_skip hpa]
      exact ih hobj

theorem aggregate_latest_ok {objs : List Record} {today : Date}
    (h : ∀ obj ∈ objs, passesLatest ((addDays today 7).isoformat) obj = false) :
    aggregate_latest objs today = Except.ok [] := by
  show (match objs.foldlM (latestStep ((addDays today 7).isoformat)) ([] : AList) with
    | Except.error e => Except.error e
    | Except.ok latest =>
      Except.ok (pySort (fun a b => pyStrLe b.key a.key) (latest.map Prod.snd))) = Except.ok []
  rw [latest_fold_ok h]
  rfl

theorem aggregate_latest_err {objs : List Record} {today : Date} {obj : Record}
    (hm : obj ∈ objs)
    (hp : passesLatest ((addDays today 7).isoformat) obj = true) :
    aggregate_latest objs today =
      Except.error "NameError: name lastest is not defined" := by
  show (match objs.foldlM (latestStep ((addDays today 7).isoformat)) ([] : AList) with
    | Except.error e => Except.error e
    | Except.ok latest =>
      Except.ok (pySort (fun a b => pyStrLe b.key a.key) (latest.map Prod.snd))) =
    Except.error "NameError: name lastest is not defined"
  rw [latest_fold_err hm hp]

theorem aggregate_latest_ok_nil {objs : List Record} {today : Date} {r : List Group}
    (h : aggregate_latest objs today = Except.ok r) : r = [] := by
  by_cases hex : ∃ obj ∈ objs, passesLatest ((addDays today 7).isoformat) obj = true
  · rcases hex with ⟨obj, hm, hp⟩
    rw [aggregate_latest_err hm hp] at h
    exact Except.noConfusion h
  · have h0 : ∀ obj ∈ objs, passesLatest ((addDays today 7).isoformat) obj = false := by
      intro obj hm
      cases hb : passesLatest ((addDays today 7).isoformat) obj with
      | true => exact absurd ⟨obj, hm, hb⟩ hex
      | false => rfl
    rw [aggregate_latest_ok h0] at h
    exact (Except.ok.inj h).symm

/-!  Each facet expressed through its contribution dict. -/

theorem aggregate_year_eq (objs : List Record) :
    aggregate_year objs =
      pySort (fun a b => pyStrLe (get_sort_year b) (get_sort_year a))
        ((buildDict (yearContribs objs)).map Prod.snd) := by
  unfold aggregate_year buildDict
  rw [year_fold_eq]

theorem aggregate_publication_eq (objs : List Record) :
    aggregate_publication objs =
      pySort (fun a b => pyStrLe (get_sort_publication a) (get_sort_publication b))
        ((buildDict (publicationContribs objs)).map Prod.snd) := by
  unfold aggregate_publication buildDict
  rw [publication_fold_eq]

theorem aggregate_issn_eq (objs : List Record) :
    aggregate_issn objs =
      pySort (fun a b => pyStrLe (get_sort_issn a) (get_sort_issn b))
        ((buildDict (issnContribs objs)).map Prod.snd) := by
  unfold aggregate_issn buildDict
  rw [issn_fold_eq]

theorem aggregate_collection_eq (objs : List Record) :
    aggregate_collection objs =
      pySort (fun a b => pyStrLe (get_sort_collection a) (get_sort_collection b))
        ((buildDict (collectionContribs objs)).map Prod.snd) := by
  unfold aggregate_collection buildDict
  rw [collection_fold_eq]

theorem aggregate_event_eq (objs : List Record) :
    aggregate_event objs =
      pySort (fun a b => pyStrLe (get_sort_event a) (get_sort_event b))
        ((buildDict (eventContribs objs)).map Prod.snd) := by
  unfold aggregate_event buildDict
  rw [event_fold_eq]

theorem aggregate_subjects_eq (get_subject : String → Option String) (objs : List Record) :
    aggregate_subjects get_subject objs =
      pySort (fun a b => pyStrLe (get_sort_subject a) (get_sort_subject b))
        ((buildDict (subjectsContribs get_subject objs)).map Prod.snd) := by
  unfold aggregate_subjects buildDict
  rw [subjects_fold_eq]

theorem idsGroups_eq (objs : List Record) :
    idsGroups objs = (buildDict (idsContribs objs)).map Prod.snd := by
  unfold idsGroups buildDict
  rw [ids_fold_eq]

theorem aggregate_types_eq (objs : List Record) :
    aggregate_types objs =
      pySort (fun a b => pyStrLe a.key b.key)
        ((buildDict (typesContribs objs)).map Prod.snd) := by
  unfold aggregate_types buildDict
  rw [types_fold_eq]

theorem aggregate_people_ok_eq {objs : List Record} {l : List Group}
    (h : aggregate_people objs = Except.ok l) :
    l = pySort (fun a b => pyStrLe (get_sort_name a) (get_sort_name b))
        ((buildDict (peopleContribs objs)).map Prod.snd) := by
  unfold aggregate_people at h
  cases hf : objs.foldlM peopleObjStep ([] : AList) with
  | error e =>
    rw [hf] at h
    exact Except.noConfusion h
  | ok d =>
    rw [hf] at h
    have hd := people_fold_ok hf
    rw [← Except.ok.inj h, hd]
    rfl

/-!  Field facts about the contributions of each facet. -/

theorem yearContribs_fields {objs : List Record} {c : Contribution}
    (hc : c ∈ yearContribs objs) :
    c.init.count = 0 ∧ c.init.objects = [] ∧ c.init.key = c.dkey ∧
      c.init.label = c.dkey ∧ c.obj.date.isSome := by
  rcases List.mem_filterMap.mp hc with ⟨obj, _, heq⟩
  cases h : obj.date with
  | none => simp [h] at heq
  | some dt =>
    simp only [h] at heq
    obtain rfl := Option.some.inj heq
    exact ⟨rfl, rfl, rfl, rfl, by simp [h]⟩

theorem publicationContribs_fields {objs : List Record} {c : Contribution}
    (hc : c ∈ publicationContribs objs) :
    c.init.count = 0 ∧ c.init.objects = [] ∧ c.init.key = slugify c.dkey ∧
      c.init.label = c.dkey ∧ c.obj.publication.isSome := by
  rcases List.mem_filterMap.mp hc with ⟨obj, _, heq⟩
  cases h : obj.publication with
  | none => simp [h] at heq
  | some publication =>
    simp only [h] at heq
    obtain rfl := Option.some.inj heq
    exact ⟨rfl, rfl, rfl, rfl, by simp [h]⟩

theorem issnContribs_fields {objs : List Record} {c : Contribution}
    (hc : c ∈ issnContribs objs) :
    c.init.count = 0 ∧ c.init.objects = [] ∧ c.init.key = c.dkey ∧
      c.init.label = c.dkey ∧ c.obj.issn.isSome := by
  rcases List.mem_filterMap.mp hc with ⟨obj, _, heq⟩
  cases h : obj.issn with
  | none => simp [h] at heq
  | some issn =>
    simp only [h] at heq
    obtain rfl := Option.some.inj heq
    exact ⟨rfl, rfl, rfl, rfl, by simp [h]⟩

theorem collectionContribs_fields {objs : List Record} {c : Contribution}
    (hc : c ∈ collectionContribs objs) :
    c.init.count = 0 ∧ c.init.objects = [] ∧ c.init.key = slugify c.dkey ∧
      c.init.label = c.dkey ∧ c.obj.collection.isSome := by
  rcases List.mem_filterMap.mp hc with ⟨obj, _, heq⟩
  cases h : obj.collection with
  | none => simp [h] at heq
  | some collection =>
    simp only [h] at heq
    obtain rfl := Option.some.inj heq
    exact ⟨rfl, rfl, rfl, rfl, by simp [h]⟩

theorem eventContribs_fields {objs : List Record} {c : Contribution}
    (hc : c ∈ eventContribs objs) :
    c.init.count = 0 ∧ c.init.objects = [] ∧ c.init.key = slugify c.dkey ∧
      c.init.label = c.dkey ∧ c.dkey = eventTitleOf c.obj := by
  rcases List.mem_map.mp hc with ⟨obj, _, rfl⟩
  exact ⟨rfl, rfl, rfl, rfl, rfl⟩

theorem subjectsContribs_fields {get_subject : String → Option String}
    {objs : List Record} {c : Contribution}
    (hc : c ∈ subjectsContribs get_subject objs) :
    c.init.count = 0 ∧ c.init.objects = [] ∧ c.init.key = c.dkey ∧
      c.obj.subjects.isSome := by
  rcases List.mem_flatMap.mp hc with ⟨obj, _, hmem⟩
  cases h : obj.subjects with
  | none => simp [h] at hmem
  | some items =>
    simp only [h] at hmem
    rcases List.mem_filterMap.mp hmem with ⟨subj, _, heq⟩
    cases hg : get_subject subj with
    | none => simp [hg] at heq
    | some subject_name =>
      simp only [hg] at heq
      obtain rfl := Option.some.inj heq
      exact ⟨rfl, rfl, rfl, by simp [h]⟩

theorem idsContribs_fields {objs : List Record} {c : Contribution}
    (hc : c ∈ idsContribs objs) :
    c.init.count = 0 ∧ c.init.objects = [] ∧ c.init.key = c.dkey ∧
      c.dkey = get_eprint_id c.obj := by
  rcases List.mem_map.mp hc with ⟨obj, _, rfl⟩
  exact ⟨rfl, rfl, rfl, rfl⟩

theorem typesContribs_fields {objs : List Record} {c : Contribution}
    (hc : c ∈ typesContribs objs) :
    c.init.count = 0 ∧ c.init.objects = [] ∧ c.init.key = c.dkey ∧
      c.init.label = make_label c.dkey ∧ c.dkey = get_object_type c.obj := by
  rcases List.mem_map.mp hc with ⟨obj, _, rfl⟩
  exact ⟨rfl, rfl, rfl, rfl, rfl⟩

theorem peopleContribs_fields {objs : List Record} {c : Contribution}
    (hc : c ∈ peopleContribs objs) :
    c.init.count = 0 ∧ c.init.objects = [] ∧ c.init.key = c.dkey := by
  rcases List.mem_flatMap.mp hc with ⟨obj, _, hmem⟩
  cases h : obj.creators with
  | none => simp [h] at hmem
  | some cs =>
    cases hany : cs.any (fun x => x.id.isSome) with
    | true =>
      simp only [h, hany] at hmem
      rcases List.mem_map.mp hmem with ⟨cr, _, rfl⟩
      exact ⟨rfl, rfl, rfl⟩
    | false => simp [h, hany] at hmem

/-!  Claim theorems. -/

/-- C9: `aggregate_latest` never returns a non-empty list.  For every input,
if no record's truncated `lastmod` passes the window test the result is the
empty list; if some record passes, the call fails with the name-resolution
error for the undefined accumulator name `lastest`; and every successful
result is empty. -/
theorem aggregate_latest_never_nonempty :
    ∀ (objs : List Record) (today : Date),
      ((∀ obj ∈ objs, passesLatest ((addDays today 7).isoformat) obj = false) →
        aggregate_latest objs today = Except.ok []) ∧
      ((∃ obj ∈ objs, passesLatest ((addDays today 7).isoformat) obj = true) →
        aggregate_latest objs today =
          Except.error "NameError: name lastest is not defined") ∧
      (∀ r, aggregate_latest objs today = Except.ok r → r = []) := by
  intro objs today
  refine ⟨fun h => aggregate_latest_ok h, ?_, fun r h => aggregate_latest_ok_nil h⟩
  rintro ⟨obj, hm, hp⟩
  exact aggregate_latest_err hm hp

/-- Witness for C9: a record whose `lastmod` passes the (shifted) window
test makes the call fail with the `lastest` NameError. -/
theorem aggregate_latest_never_nonempty_witness :
    aggregate_latest [{ lastmod := some "2024-02-01T00:00:00Z" }] ⟨2024, 1, 1⟩ =
      Except.error "NameError: name lastest is not defined" :=
  (aggregate_latest_never_nonempty [{ lastmod := some "2024-02-01T00:00:00Z" }]
      ⟨2024, 1, 1⟩).2.1
    ⟨{ lastmod := some "2024-02-01T00:00:00Z" }, by decide, by decide⟩

/-- C1: evaluation of the code at the spec's example.  With today
2024-01-12 the cutoff actually computed by
`today - timedelta(days = -7)` is 2024-01-19 (today plus seven days), so
the record with `lastmod` 2024-01-10 fails the window test and the call
returns the empty list, not a group containing the record. -/
theorem aggregate_latest_window_example :
    aggregate_latest [{ lastmod := some "2024-01-10T00:00:00Z" }] ⟨2024, 1, 12⟩ =
      Except.ok [] ∧
    (addDays ⟨2024, 1, 12⟩ 7).isoformat = "2024-01-19" :=
  ⟨rfl, rfl⟩

/-- C8 counterexample: the same single-record input evaluated at two
current dates gives different results (a NameError at one, the empty list
at the other), so `aggregate_latest` is not independent of ambient state. -/
theorem aggregate_latest_date_dependent :
    aggregate_latest [{ lastmod := some "2024-01-10T00:00:00Z" }] ⟨2024, 1, 1⟩ =
      Except.error "NameError: name lastest is not defined" ∧
    aggregate_latest [{ lastmod := some "2024-01-10T00:00:00Z" }] ⟨2024, 1, 10⟩ =
      Except.ok [] ∧
    (Except.error "NameError: name lastest is not defined" :
      Except String (List Group)) ≠ Except.ok [] :=
  ⟨rfl, rfl, fun h => Except.noConfusion h⟩

/-- C8 (amended): facet operations other than `aggregate_latest` are
functions of their declared inputs alone; `aggregate_latest` also depends
on the current date, but any two calls on the same records that both return
successfully agree (both results are empty). -/
theorem aggregate_latest_ok_agree :
    ∀ (objs : List Record) (t₁ t₂ : Date) (r₁ r₂ : List Group),
      aggregate_latest objs t₁ = Except.ok r₁ →
      aggregate_latest objs t₂ = Except.ok r₂ → r₁ = r₂ := by
  intro objs t₁ t₂ r₁ r₂ h₁ h₂
  rw [aggregate_latest_ok_nil h₁, aggregate_latest_ok_nil h₂]

/-- Witness for C8's amended theorem at a concrete record list and dates. -/
theorem aggregate_latest_ok_agree_witness :
    aggregate_latest [{ date := some "2002" }] ⟨2024, 1, 1⟩ = Except.ok [] ∧
    aggregate_latest [{ date := some "2002" }] ⟨2025, 6, 1⟩ = Except.ok [] ∧
    ([] : List Group) = [] :=
  ⟨rfl, rfl,
    aggregate_latest_ok_agree [{ date := some "2002" }] ⟨2024, 1, 1⟩ ⟨2025, 6, 1⟩ [] [] rfl rfl⟩

/-- C4: evaluation at a two-record input.  `aggregate_publication` returns
the groups in insertion order (its sort key accessor always returns the
empty string), so the labels come back B before A, which is not ascending
by publication name. -/
theorem aggregate_publication_unsorted_example :
    (aggregate_publication [{ publication := some "B" }, { publication := some "A" }]).map
        (fun g => g.label) = ["B", "A"] ∧
    pyStrLe "B" "A" = false :=
  ⟨rfl, rfl⟩

/-- `aggregate_ids` with its local `ids_list` binding unfolded. -/
theorem aggregate_ids_def (objs : List Record) :
    aggregate_ids objs =
      if (idsGroups objs).all (fun g => (pyInt g.key).isSome) then
        Except.ok (pySort (fun a b => decide ((pyInt a.key).getD 0 ≤ (pyInt b.key).getD 0))
          (idsGroups objs))
      else Except.error "ValueError: invalid literal for int with base 10" := rfl

/-- C6: `aggregate_ids` fails with the integer-conversion error exactly when
some group key does not parse as an integer, and on success the groups come
back ascending by the integer value of the key. -/
theorem aggregate_ids_numeric :
    ∀ objs : List Record,
      ((∃ g ∈ idsGroups objs, pyInt g.key = none) ↔
        aggregate_ids objs = Except.error "ValueError: invalid literal for int with base 10") ∧
      (∀ l, aggregate_ids objs = Except.ok l →
        (∀ g ∈ l, (pyInt g.key).isSome) ∧
        l.Pairwise (fun a b => (pyInt a.key).getD 0 ≤ (pyInt b.key).getD 0)) := by
  intro objs
  constructor
  · constructor
    · rintro ⟨g, hg, hnone⟩
      have hall : (idsGroups objs).all (fun g => (pyInt g.key).isSome) = false :=
        List.all_eq_false.mpr ⟨g, hg, by rw [hnone]; simp⟩
      rw [aggregate_ids_def, if_neg (by simp [hall])]
    · intro herr
      cases hall : (idsGroups objs).all (fun g => (pyInt g.key).isSome) with
      | true =>
        rw [aggregate_ids_def, if_pos hall] at herr
        exact Except.noConfusion herr
      | false =>
        rcases List.all_eq_false.mp hall with ⟨g, hg, hns⟩
        refine ⟨g, hg, ?_⟩
        cases hpi : pyInt g.key with
        | none => rfl
        | some v => rw [hpi] at hns; simp at hns
  · intro l hl
    cases hall : (idsGroups objs).all (fun g => (pyInt g.key).isSome) with
    | false =>
      rw [aggregate_ids_def, if_neg (by simp [hall])] at hl
      exact Except.noConfusion hl
    | true =>
      rw [aggregate_ids_def, if_pos hall] at hl
      have hleq : l = pySort (fun a b => decide ((pyInt a.key).getD 0 ≤ (pyInt b.key).getD 0))
          (idsGroups objs) := (Except.ok.inj hl).symm
      constructor
      · intro g hg
        rw [hleq, mem_pySort] at hg
        exact List.all_eq_true.mp hall g hg
      · rw [hleq]
        have hp := pySort_pairwise
          (fun a b => decide ((pyInt a.key).getD 0 ≤ (pyInt b.key).getD 0))
          (fun a b => ?_) (fun a b c hab hbc => ?_) (idsGroups objs)
        · exact hp.imp (fun hab => of_decide_eq_true hab)
        · rcases le_total ((pyInt a.key).getD 0) ((pyInt b.key).getD 0) with h | h
          · exact Or.inl (decide_eq_true h)
          · exact Or.inr (decide_eq_true h)
        · exact decide_eq_true (le_trans (of_decide_eq_true hab) (of_decide_eq_true hbc))

/-- Witness for C6: a record without an `eprint_id` produces the
unparseable key `''` and the conversion error, and the spec's example ids
10, 2, 33 come back in numeric order 2, 10, 33. -/
theorem aggregate_ids_numeric_witness :
    aggregate_ids [{ }] = Except.error "ValueError: invalid literal for int with base 10" ∧
    (aggregate_ids [{ eprint_id := some "10" }, { eprint_id := some "2" },
        { eprint_id := some "33" }]).map (fun l => l.map (fun g => g.key)) =
      Except.ok ["2", "10", "33"] :=
  ⟨(aggregate_ids_numeric [{ }]).1.mp (by decide), rfl⟩

/-- For facets whose dict key is a function of the record, a record lies in
the `objects` of at most one group value of the dict. -/
theorem buildDict_unique_value {cs : List Contribution} (keyOf : Record → String)
    (hinit : ∀ c ∈ cs, c.init.objects = [])
    (hdkey : ∀ c ∈ cs, c.dkey = keyOf c.obj)
    {obj : Record} {k k' : String} {g g' : Group}
    (hk : (k, g) ∈ buildDict cs) (hk' : (k', g') ∈ buildDict cs)
    (ho : obj ∈ g.objects) (ho' : obj ∈ g'.objects) : g = g' := by
  rcases buildDict_obj_mem hinit hk ho with ⟨c, hc, hck, hco⟩
  rcases buildDict_obj_mem hinit hk' ho' with ⟨c', hc', hck', hco'⟩
  have e1 : k = keyOf obj := by rw [← hck, hdkey c hc, hco]
  have e2 : k' = keyOf obj := by rw [← hck', hdkey c' hc', hco']
  have h1 := mem_lookupA (nodup_keysA_buildDict cs) hk
  have h2 := mem_lookupA (nodup_keysA_buildDict cs) hk'
  rw [e1] at h1
  rw [e2] at h2
  rw [h1] at h2
  exact Option.some.inj h2

/-- C7: in `aggregate_event`, a record with no `event_title` still lands in
a group, namely the one with empty key and empty label, and every input
record belongs to exactly one event group. -/
theorem aggregate_event_groups_every_record :
    ∀ (objs : List Record) (obj : Record), obj ∈ objs →
      (obj.event_title = none →
        ∃ g, g ∈ aggregate_event objs ∧ g.key = "" ∧ g.label = "" ∧ obj ∈ g.objects) ∧
      (∃! g, g ∈ aggregate_event objs ∧ obj ∈ g.objects) := by
  intro objs obj hm
  have hc : (⟨eventTitleOf obj,
      { key := slugify (eventTitleOf obj), label := eventTitleOf obj, count := 0,
        year := some (get_date_year obj), objects := [] }, obj⟩ : Contribution) ∈
      eventContribs objs :=
    List.mem_map.mpr ⟨obj, hm, rfl⟩
  rcases buildDict_contrib_mem hc with ⟨g0, hg0, hobj0⟩
  rcases buildDict_entry hg0 with ⟨c₀, hc₀mem, hdk, _, hg0eq⟩
  have hkey : g0.key = slugify (eventTitleOf obj) := by
    rw [hg0eq]
    show c₀.init.key = slugify (eventTitleOf obj)
    rw [(eventContribs_fields hc₀mem).2.2.1, hdk]
  have hlabel : g0.label = eventTitleOf obj := by
    rw [hg0eq]
    show c₀.init.label = eventTitleOf obj
    rw [(eventContribs_fields hc₀mem).2.2.2.1, hdk]
  have hmem : g0 ∈ aggregate_event objs := by
    rw [aggregate_event_eq, mem_pySort]
    exact mem_values_iff.mpr ⟨_, hg0⟩
  constructor
  · intro hnone
    have ht : eventTitleOf obj = "" := by simp [eventTitleOf, hnone]
    refine ⟨g0, hmem, ?_, ?_, hobj0⟩
    · rw [hkey, ht]
      rfl
    · rw [hlabel, ht]
  · refine ⟨g0, ⟨hmem, hobj0⟩, ?_⟩
    rintro g' ⟨hg'mem, hg'o⟩
    rw [aggregate_event_eq, mem_pySort] at hg'mem
    rcases mem_values_iff.mp hg'mem with ⟨k', hk'⟩
    exact buildDict_unique_value eventTitleOf
      (fun c hcm => (eventContribs_fields hcm).2.1)
      (fun c hcm => (eventContribs_fields hcm).2.2.2.2) hk' hg0 hg'o hobj0

/-- Witness for C7: the single record with no fields at all is grouped under
the empty event key and label. -/
theorem aggregate_event_groups_every_record_witness :
    ∃ g, g ∈ aggregate_event [{ }] ∧ g.key = "" ∧ g.label = "" ∧
      ({ } : Record) ∈ g.objects :=
  (aggregate_event_groups_every_record [{ }] { } (by decide)).1 rfl

/-- Sum of all group counts over a fresh contribution dict: one per
contribution. -/
theorem sum_counts_buildDict (cs : List Contribution)
    (hinit : ∀ c ∈ cs, c.init.count = 0) :
    (((buildDict cs).map Prod.snd).map (fun g => g.count)).sum = cs.length := by
  rw [List.map_map]
  have h := sum_counts_fold cs [] hinit
  simpa [buildDict, Function.comp] using h

/-- C10: `aggregate_types` assigns every record to exactly one group; a
record with no `type` is grouped under the empty key and empty label, and
the counts over all type groups sum to the number of input records. -/
theorem aggregate_types_partition :
    ∀ objs : List Record,
      ((aggregate_types objs).map (fun g => g.count)).sum = objs.length ∧
      (∀ obj ∈ objs,
        (obj.type = none →
          ∃ g, g ∈ aggregate_types objs ∧ g.key = "" ∧ g.label = "" ∧ obj ∈ g.objects) ∧
        (∃! g, g ∈ aggregate_types objs ∧ obj ∈ g.objects)) := by
  intro objs
  constructor
  · rw [aggregate_types_eq]
    have hperm := (pySort_perm (fun a b => pyStrLe a.key b.key)
      ((buildDict (typesContribs objs)).map Prod.snd)).map (fun g => g.count)
    rw [hperm.sum_eq]
    rw [sum_counts_buildDict (typesContribs objs) (fun c hcm => (typesContribs_fields hcm).1)]
    simp [typesContribs]
  · intro obj hm
    have hc : (⟨get_object_type obj,
        { key := get_object_type obj, label := make_label (get_object_type obj),
          type := some (get_object_type obj), count := 0, objects := [] }, obj⟩ :
        Contribution) ∈ typesContribs objs :=
      List.mem_map.mpr ⟨obj, hm, rfl⟩
    rcases buildDict_contrib_mem hc with ⟨g0, hg0, hobj0⟩
    rcases buildDict_entry hg0 with ⟨c₀, hc₀mem, hdk, _, hg0eq⟩
    have hkey : g0.key = get_object_type obj := by
      rw [hg0eq]
      show c₀.init.key = get_object_type obj
      rw [(typesContribs_fields hc₀mem).2.2.1, hdk]
    have hlabel : g0.label = make_label (get_object_type obj) := by
      rw [hg0eq]
      show c₀.init.label = make_label (get_object_type obj)
      rw [(typesContribs_fields hc₀mem).2.2.2.1, hdk]
    have hmem : g0 ∈ aggregate_types objs := by
      rw [aggregate_types_eq, mem_pySort]
      exact mem_values_iff.mpr ⟨_, hg0⟩
    constructor
    · intro hnone
      have ht : get_object_type obj = "" := by simp [get_object_type, hnone]
      refine ⟨g0, hmem, ?_, ?_, hobj0⟩
      · rw [hkey, ht]
      · rw [hlabel, ht]
        rfl
    · refine ⟨g0, ⟨hmem, hobj0⟩, ?_⟩
      rintro g' ⟨hg'mem, hg'o⟩
      rw [aggregate_types_eq, mem_pySort] at hg'mem
      rcases mem_values_iff.mp hg'mem with ⟨k', hk'⟩
      exact buildDict_unique_value get_object_type
        (fun c hcm => (typesContribs_fields hcm).2.1)
        (fun c hcm => (typesContribs_fields hcm).2.2.2.2) hk' hg0 hg'o hobj0

/-- Witness for C10: a typeless record is grouped under the empty type key
with empty label. -/
theorem aggregate_types_partition_witness :
    ∃ g, g ∈ aggregate_types [{ }] ∧ g.key = "" ∧ g.label = "" ∧
      ({ } : Record) ∈ g.objects :=
  ((aggregate_types_partition [{ }]).2 { } (by decide)).1 rfl

/-!  Helpers lifting the dict lemmas to sorted facet results. -/

theorem sorted_values_count_len {cs : List Contribution} (le : Group → Group → Bool)
    (hinit : ∀ c ∈ cs, c.init.count = 0 ∧ c.init.objects = [])
    {g : Group} (hg : g ∈ pySort le ((buildDict cs).map Prod.snd)) :
    g.count = g.objects.length := by
  rw [mem_pySort] at hg
  rcases mem_values_iff.mp hg with ⟨k, hk⟩
  exact buildDict_count_len hinit hk

theorem sorted_values_proj_nodup (cs : List Contribution) (le : Group → Group → Bool)
    (f : Group → String) (hf : ∀ c ∈ cs, f c.init = c.dkey)
    (hbump : ∀ g os, f (bumpMany g os) = f g) :
    ((pySort le ((buildDict cs).map Prod.snd)).map f).Nodup :=
  ((pySort_perm le ((buildDict cs).map Prod.snd)).map f).nodup_iff.mpr
    (buildDict_values_proj_nodup cs f hf hbump)

theorem sorted_values_obj_from_contrib {cs : List Contribution} {le : Group → Group → Bool}
    (hinit : ∀ c ∈ cs, c.init.objects = [])
    {g : Group} (hg : g ∈ pySort le ((buildDict cs).map Prod.snd))
    {o : Record} (ho : o ∈ g.objects) : ∃ c ∈ cs, c.obj = o := by
  rw [mem_pySort] at hg
  rcases mem_values_iff.mp hg with ⟨k, hk⟩
  rcases buildDict_obj_mem hinit hk ho with ⟨c, hc, _, hco⟩
  exact ⟨c, hc, hco⟩

theorem aggregate_ids_ok_eq {objs : List Record} {l : List Group}
    (h : aggregate_ids objs = Except.ok l) :
    l = pySort (fun a b => decide ((pyInt a.key).getD 0 ≤ (pyInt b.key).getD 0))
      (idsGroups objs) := by
  cases hall : (idsGroups objs).all (fun g => (pyInt g.key).isSome) with
  | true =>
    rw [aggregate_ids_def, if_pos hall] at h
    exact (Except.ok.inj h).symm
  | false =>
    rw [aggregate_ids_def, if_neg (by simp [hall])] at h
    exact Except.noConfusion h

/-- C5 counterexample: two publications that differ only in a space versus a
slash slugify to the same key, so one facet result carries two groups with
the same `key` and the key values are not pairwise distinct. -/
theorem aggregate_publication_key_collision :
    ¬ (((aggregate_publication [{ publication := some "a b" }, { publication := some "a/b" }]).map
        (fun g => g.key)).Nodup) := by
  intro h
  have he : (aggregate_publication [{ publication := some "a b" },
      { publication := some "a/b" }]).map (fun g => g.key) = ["a_b", "a_b"] := rfl
  rw [he] at h
  simp at h

/-- C5 (amended): in every facet result `count` equals the length of
`objects`; the `key` values are pairwise distinct for the year, ISSN,
subject, people, identifier, type, and latest facets; for the publication,
collection, and event facets the group labels (the raw strings the dict
groups on) are pairwise distinct, while the slugified keys may collide. -/
theorem facet_group_invariants :
    (∀ objs : List Record, ∀ g ∈ aggregate_year objs, g.count = g.objects.length) ∧
    (∀ objs : List Record, ∀ g ∈ aggregate_publication objs, g.count = g.objects.length) ∧
    (∀ objs : List Record, ∀ g ∈ aggregate_issn objs, g.count = g.objects.length) ∧
    (∀ objs : List Record, ∀ g ∈ aggregate_collection objs, g.count = g.objects.length) ∧
    (∀ objs : List Record, ∀ g ∈ aggregate_event objs, g.count = g.objects.length) ∧
    (∀ (gs : String → Option String) (objs : List Record),
      ∀ g ∈ aggregate_subjects gs objs, g.count = g.objects.length) ∧
    (∀ objs : List Record, ∀ g ∈ aggregate_types objs, g.count = g.objects.length) ∧
    (∀ (objs : List Record) (l : List Group), aggregate_people objs = Except.ok l →
      ∀ g ∈ l, g.count = g.objects.length) ∧
    (∀ (objs : List Record) (l : List Group), aggregate_ids objs = Except.ok l →
      ∀ g ∈ l, g.count = g.objects.length) ∧
    (∀ (objs : List Record) (today : Date) (l : List Group),
      aggregate_latest objs today = Except.ok l → ∀ g ∈ l, g.count = g.objects.length) ∧
    (∀ objs : List Record, ((aggregate_year objs).map (fun g => g.key)).Nodup) ∧
    (∀ objs : List Record, ((aggregate_issn objs).map (fun g => g.key)).Nodup) ∧
    (∀ (gs : String → Option String) (objs : List Record),
      ((aggregate_subjects gs objs).map (fun g => g.key)).Nodup) ∧
    (∀ objs : List Record, ((aggregate_types objs).map (fun g => g.key)).Nodup) ∧
    (∀ (objs : List Record) (l : List Group), aggregate_people objs = Except.ok l →
      (l.map (fun g => g.key)).Nodup) ∧
    (∀ (objs : List Record) (l : List Group), aggregate_ids objs = Except.ok l →
      (l.map (fun g => g.key)).Nodup) ∧
    (∀ (objs : List Record) (today : Date) (l : List Group),
      aggregate_latest objs today = Except.ok l → (l.map (fun g => g.key)).Nodup) ∧
    (∀ objs : List Record, ((aggregate_publication objs).map (fun g => g.label)).Nodup) ∧
    (∀ objs : List Record, ((aggregate_collection objs).map (fun g => g.label)).Nodup) ∧
    (∀ objs : List Record, ((aggregate_event objs).map (fun g => g.label)).Nodup) := by
  refine ⟨?_, ?_, ?_, ?_, ?_, ?_, ?_, ?_, ?_, ?_, ?_, ?_, ?_, ?_, ?_, ?_, ?_, ?_, ?_, ?_⟩
  · intro objs g hg
    rw [aggregate_year_eq] at hg
    exact sorted_values_count_len _
      (fun c hcm => ⟨(yearContribs_fields hcm).1, (yearContribs_fields hcm).2.1⟩) hg
  · intro objs g hg
    rw [aggregate_publication_eq] at hg
    exact sorted_values_count_len _
      (fun c hcm => ⟨(publicationContribs_fields hcm).1, (publicationContribs_fields hcm).2.1⟩) hg
  · intro objs g hg
    rw [aggregate_issn_eq] at hg
    exact sorted_values_count_len _
      (fun c hcm => ⟨(issnContribs_fields hcm).1, (issnContribs_fields hcm).2.1⟩) hg
  · intro objs g hg
    rw [aggregate_collection_eq] at hg
    exact sorted_values_count_len _
      (fun c hcm => ⟨(collectionContribs_fields hcm).1, (collectionContribs_fields hcm).2.1⟩) hg
  · intro objs g hg
    rw [aggregate_event_eq] at hg
    exact sorted_values_count_len _
      (fun c hcm => ⟨(eventContribs_fields hcm).1, (eventContribs_fields hcm).2.1⟩) hg
  · intro gs objs g hg
    rw [aggregate_subjects_eq] at hg
    exact sorted_values_count_len _
      (fun c hcm => ⟨(subjectsContribs_fields hcm).1, (subjectsContribs_fields hcm).2.1⟩) hg
  · intro objs g hg
    rw [aggregate_types_eq] at hg
    exact sorted_values_count_len _
      (fun c hcm => ⟨(typesContribs_fields hcm).1, (typesContribs_fields hcm).2.1⟩) hg
  · intro objs l h g hg
    rw [aggregate_people_ok_eq h] at hg
    exact sorted_values_count_len _
      (fun c hcm => ⟨(peopleContribs_fields hcm).1, (peopleContribs_fields hcm).2.1⟩) hg
  · intro objs l h g hg
    rw [aggregate_ids_ok_eq h, idsGroups_eq] at hg
    exact sorted_values_count_len _
      (fun c hcm => ⟨(idsContribs_fields hcm).1, (idsContribs_fields hcm).2.1⟩) hg
  · intro objs today l h g hg
    rw [aggregate_latest_ok_nil h] at hg
    cases hg
  · intro objs
    rw [aggregate_year_eq]
    exact sorted_values_proj_nodup _ _ (fun g => g.key)
      (fun c hcm => (yearContribs_fields hcm).2.2.1) (fun g os => rfl)
  · intro objs
    rw [aggregate_issn_eq]
    exact sorted_values_proj_nodup _ _ (fun g => g.key)
      (fun c hcm => (issnContribs_fields hcm).2.2.1) (fun g os => rfl)
  · intro gs objs
    rw [aggregate_subjects_eq]
    exact sorted_values_proj_nodup _ _ (fun g => g.key)
      (fun c hcm => (subjectsContribs_fields hcm).2.2.1) (fun g os => rfl)
  · intro objs
    rw [aggregate_types_eq]
    exact sorted_values_proj_nodup _ _ (fun g => g.key)
      (fun c hcm => (typesContribs_fields hcm).2.2.1) (fun g os => rfl)
  · intro objs l h
    rw [aggregate_people_ok_eq h]
    exact sorted_values_proj_nodup _ _ (fun g => g.key)
      (fun c hcm => (peopleContribs_fields hcm).2.2) (fun g os => rfl)
  · intro objs l h
    rw [aggregate_ids_ok_eq h, idsGroups_eq]
    exact sorted_values_proj_nodup _ _ (fun g => g.key)
      (fun c hcm => (idsContribs_fields hcm).2.2.1) (fun g os => rfl)
  · intro objs today l h
    rw [aggregate_latest_ok_nil h]
    simp
  · intro objs
    rw [aggregate_publication_eq]
    exact sorted_values_proj_nodup _ _ (fun g => g.label)
      (fun c hcm => (publicationContribs_fields hcm).2.2.2.1) (fun g os => rfl)
  · intro objs
    rw [aggregate_collection_eq]
    exact sorted_values_proj_nodup _ _ (fun g => g.label)
      (fun c hcm => (collectionContribs_fields hcm).2.2.2.1) (fun g os => rfl)
  · intro objs
    rw [aggregate_event_eq]
    exact sorted_values_proj_nodup _ _ (fun g => g.label)
      (fun c hcm => (eventContribs_fields hcm).2.2.2.1) (fun g os => rfl)

/-- Witness for C5's amended theorem: the people facet on one concrete
record returns one group whose count matches its object list. -/
theorem facet_group_invariants_witness :
    ∀ g ∈ [({ key := "A", label := "N", count := 1, objects := [{ creators := some [{ id := some "A", display_name := some "N" }] }], people_id := some "A", sort_name := some "N" } : Group)], g.count = g.objects.length :=
  facet_group_invariants.2.2.2.2.2.2.2.1
    [{ creators := some [{ id := some "A", display_name := some "N" }] }]
    [({ key := "A", label := "N", count := 1, objects := [{ creators := some [{ id := some "A", display_name := some "N" }] }], people_id := some "A", sort_name := some "N" } : Group)]
    rfl

/-!  Helpers about the people facet's contributions and failure modes. -/

theorem peopleContribs_mem {objs : List Record} {c : Contribution}
    (hc : c ∈ peopleContribs objs) :
    ∃ obj cs cr, obj ∈ objs ∧ obj.creators = some cs ∧
      (cs.any fun x => x.id.isSome) = true ∧ cr ∈ cs ∧ c = creatorContrib obj cr := by
  rcases List.mem_flatMap.mp hc with ⟨obj, hobj, hmem⟩
  cases h : obj.creators with
  | none => simp [h] at hmem
  | some cs =>
    cases hany : cs.any (fun x => x.id.isSome) with
    | true =>
      simp only [h, hany] at hmem
      rcases List.mem_map.mp hmem with ⟨cr, hcr, rfl⟩
      exact ⟨obj, cs, cr, hobj, h, hany, hcr, rfl⟩
    | false => simp [h, hany] at hmem

theorem peopleContribs_mem_of {objs : List Record} {obj : Record} {cs : List Creator}
    {cr : Creator} (hm : obj ∈ objs) (hcs : obj.creators = some cs)
    (hany : (cs.any fun x => x.id.isSome) = true) (hcr : cr ∈ cs) :
    creatorContrib obj cr ∈ peopleContribs objs := by
  apply List.mem_flatMap.mpr
  refine ⟨obj, hm, ?_⟩
  simp only [hcs, hany]
  exact List.mem_map_of_mem _ hcr

/-- A creator lacking `id` or `display_name` inside a record that passes
`has_creator_ids` makes the whole `aggregate_people` call fail. -/
theorem people_error_of_bad_creator {objs : List Record} {obj : Record} {c : Creator}
    (hm : obj ∈ objs) (hq : has_creator_ids obj = Except.ok true)
    (hc : c ∈ obj.creators.getD []) (hbad : c.id = none ∨ c.display_name = none) :
    ∃ e, aggregate_people objs = Except.error e := by
  have hcs' : ∃ cs, obj.creators = some cs := by
    cases h : obj.creators with
    | none =>
      rw [has_creator_ids, h] at hq
      exact Except.noConfusion hq
    | some cs => exact ⟨cs, rfl⟩
  rcases hcs' with ⟨cs, hcs⟩
  have hcerr : ∀ st, ∃ e, peopleCreatorStep obj st c = Except.error e := by
    intro st
    rcases hbad with hid | hname
    · exact ⟨"KeyError: id", by rw [peopleCreatorStep, hid]⟩
    · cases hid2 : c.id with
      | none => exact ⟨"KeyError: id", by rw [peopleCreatorStep, hid2]⟩
      | some cid => exact ⟨"KeyError: display_name", by rw [peopleCreatorStep, hid2, hname]⟩
  have hcmem : c ∈ cs := by
    rw [hcs] at hc
    exact hc
  have hstep : ∀ st, ∃ e, peopleObjStep st obj = Except.error e := by
    intro st
    rcases foldlM_error_absorb (peopleCreatorStep obj) hcmem hcerr st with ⟨e, he⟩
    refine ⟨e, ?_⟩
    rw [peopleObjStep, hq]
    simp only [hcs, Option.getD_some]
    exact he
  rcases foldlM_error_absorb peopleObjStep hm hstep [] with ⟨e, he⟩
  refine ⟨e, ?_⟩
  rw [aggregate_people, he]

/-- C3 counterexample: a record whose first creator is fully identified but
whose second creator has neither `id` nor `display_name` makes
`aggregate_people` raise a KeyError instead of skipping the creator. -/
theorem people_fails_on_partial_creator :
    aggregate_people [{ creators := some [{ id := some "A1", display_name := some "Smith" }, { }] }] =
      Except.error "KeyError: id" := rfl

/-- C3 (amended): in `aggregate_people`, a creator lacking `id` or
`display_name` inside a record with at least one identified creator makes
the call raise a KeyError; when the call succeeds, every creator of every
such record carries both fields and is grouped under its identifier with
the record appended and the first-seen display name as label, and every
returned group stems from such a creator. -/
theorem aggregate_people_grouping :
    (∀ (objs : List Record) (obj : Record) (c : Creator),
      obj ∈ objs → has_creator_ids obj = Except.ok true → c ∈ obj.creators.getD [] →
      (c.id = none ∨ c.display_name = none) →
      ∃ e, aggregate_people objs = Except.error e) ∧
    (∀ (objs : List Record) (l : List Group), aggregate_people objs = Except.ok l →
      ∀ obj ∈ objs, has_creator_ids obj = Except.ok true →
        ∀ c ∈ obj.creators.getD [],
          ∃ cid cname g, c.id = some cid ∧ c.display_name = some cname ∧
            g ∈ l ∧ g.key = cid ∧ obj ∈ g.objects ∧
            ((peopleContribs objs).find? (fun x => x.dkey == cid)).map
              (fun x => x.init.label) = some g.label) ∧
    (∀ (objs : List Record) (l : List Group), aggregate_people objs = Except.ok l →
      ∀ g ∈ l, ∃ (obj : Record) (c : Creator),
        obj ∈ objs ∧ has_creator_ids obj = Except.ok true ∧
        c ∈ obj.creators.getD [] ∧ c.id = some g.key) := by
  refine ⟨fun objs obj c hm hq hc hbad => people_error_of_bad_creator hm hq hc hbad, ?_, ?_⟩
  · intro objs l h obj hm hq c hc
    cases hid : c.id with
    | none =>
      rcases people_error_of_bad_creator hm hq hc (Or.inl hid) with ⟨e, he⟩
      rw [he] at h
      exact Except.noConfusion h
    | some cid =>
      cases hname : c.display_name with
      | none =>
        rcases people_error_of_bad_creator hm hq hc (Or.inr hname) with ⟨e, he⟩
        rw [he] at h
        exact Except.noConfusion h
      | some cname =>
        have hcs' : ∃ cs, obj.creators = some cs := by
          cases hh : obj.creators with
          | none =>
            rw [has_creator_ids, hh] at hq
            exact Except.noConfusion hq
          | some cs => exact ⟨cs, rfl⟩
        rcases hcs' with ⟨cs, hcs⟩
        have hany : (cs.any fun x => x.id.isSome) = true := by
          rw [has_creator_ids, hcs] at hq
          exact Except.ok.inj hq
        have hcmem : c ∈ cs := by
          rw [hcs] at hc
          exact hc
        have hcontrib := peopleContribs_mem_of hm hcs hany hcmem
        rcases buildDict_contrib_mem hcontrib with ⟨g, hkentry, hobj⟩
        have hdkey : (creatorContrib obj c).dkey = cid := by
          simp [creatorContrib, hid]
        rw [hdkey] at hkentry
        have hgkey : g.key = cid :=
          buildDict_proj (fun x => x.key)
            (fun x hxm => (peopleContribs_fields hxm).2.2) (fun g os => rfl) hkentry
        have hgl : g ∈ l := by
          rw [aggregate_people_ok_eq h, mem_pySort]
          exact mem_values_iff.mpr ⟨_, hkentry⟩
        rcases buildDict_entry hkentry with ⟨c₀, hc₀, hc₀k, hhead, hgeq⟩
        have hlabel : g.label = c₀.init.label := by
          rw [hgeq]
          rfl
        have hfind : (peopleContribs objs).find? (fun x => x.dkey == cid) = some c₀ := by
          rw [← List.filter_head?]
          exact hhead
        refine ⟨cid, cname, g, rfl, rfl, hgl, hgkey, hobj, ?_⟩
        rw [hfind]
        simp [hlabel]
  · intro objs l h g hg
    rw [aggregate_people_ok_eq h, mem_pySort] at hg
    rcases mem_values_iff.mp hg with ⟨k, hk⟩
    have hgkey : g.key = k :=
      buildDict_proj (fun x => x.key)
        (fun x hxm => (peopleContribs_fields hxm).2.2) (fun g os => rfl) hk
    rcases buildDict_entry hk with ⟨c₀, hc₀, hc₀k, _, _⟩
    rcases peopleContribs_mem hc₀ with ⟨obj, cs, cr, hobj, hcs, hany, hcr, hceq⟩
    have hq : has_creator_ids obj = Except.ok true := by
      simp only [has_creator_ids, hcs, hany]
    have hcrmem : cr ∈ obj.creators.getD [] := by
      rw [hcs]
      exact hcr
    cases hid : cr.id with
    | none =>
      rcases people_error_of_bad_creator hobj hq hcrmem (Or.inl hid) with ⟨e, he⟩
      rw [he] at h
      exact Except.noConfusion h
    | some cid =>
      have hck : c₀.dkey = cid := by
        rw [hceq]
        simp [creatorContrib, hid]
      refine ⟨obj, cr, hobj, hq, hcrmem, ?_⟩
      rw [hid, hgkey, ← hc₀k, hck]

/-- Witness for C3's amended theorem: a record with an unidentified second
creator makes the call fail. -/
theorem aggregate_people_grouping_witness :
    ∃ e, aggregate_people [{ creators := some [{ id := some "A1", display_name := some "Smith" }, { }] }] =
      Except.error e :=
  aggregate_people_grouping.1
    [{ creators := some [{ id := some "A1", display_name := some "Smith" }, { }] }]
    { creators := some [{ id := some "A1", display_name := some "Smith" }, { }] }
    { } (by decide) rfl (by decide) (Or.inl rfl)

/-- C2 counterexample: `aggregate_people` raises a KeyError on a record
with no `creators` field, and `aggregate_ids` raises a ValueError on a
record with no `eprint_id` field, instead of skipping those records. -/
theorem missing_field_failures :
    aggregate_people [{ }] = Except.error "KeyError: creators" ∧
    aggregate_ids [{ }] = Except.error "ValueError: invalid literal for int with base 10" :=
  ⟨rfl, rfl⟩

/-- C2 (amended): a record lacking the grouped-on field is skipped without
error by the year, publication, ISSN, collection, and subject facets, never
triggers the latest facet's failure, and is grouped under the empty key by
the event and type facets; but `aggregate_people` raises on any input
containing a record with no `creators` field, and `aggregate_ids` raises on
any input containing a record with no `eprint_id` field (its empty key
fails integer parsing at sort time). -/
theorem missing_field_handling :
    (∀ (objs : List Record) (obj : Record), obj.date = none →
      ∀ g ∈ aggregate_year objs, obj ∉ g.objects) ∧
    (∀ (objs : List Record) (obj : Record), obj.publication = none →
      ∀ g ∈ aggregate_publication objs, obj ∉ g.objects) ∧
    (∀ (objs : List Record) (obj : Record), obj.issn = none →
      ∀ g ∈ aggregate_issn objs, obj ∉ g.objects) ∧
    (∀ (objs : List Record) (obj : Record), obj.collection = none →
      ∀ g ∈ aggregate_collection objs, obj ∉ g.objects) ∧
    (∀ (gs : String → Option String) (objs : List Record) (obj : Record),
      obj.subjects = none → ∀ g ∈ aggregate_subjects gs objs, obj ∉ g.objects) ∧
    (∀ (objs : List Record) (today : Date), (∀ obj ∈ objs, obj.lastmod = none) →
      aggregate_latest objs today = Except.ok []) ∧
    (∀ (objs : List Record) (obj : Record), obj ∈ objs → obj.event_title = none →
      ∃ g, g ∈ aggregate_event objs ∧ g.key = "" ∧ g.label = "" ∧ obj ∈ g.objects) ∧
    (∀ (objs : List Record) (obj : Record), obj ∈ objs → obj.type = none →
      ∃ g, g ∈ aggregate_types objs ∧ g.key = "" ∧ g.label = "" ∧ obj ∈ g.objects) ∧
    (∀ (objs : List Record) (obj : Record), obj ∈ objs → obj.creators = none →
      ∃ e, aggregate_people objs = Except.error e) ∧
    (∀ (objs : List Record) (obj : Record), obj ∈ objs → obj.eprint_id = none →
      ∃ e, aggregate_ids objs = Except.error e) := by
  refine ⟨?_, ?_, ?_, ?_, ?_, ?_, ?_, ?_, ?_, ?_⟩
  · intro objs obj hnone g hg ho
    rw [aggregate_year_eq] at hg
    rcases sorted_values_obj_from_contrib
      (fun c hcm => (yearContribs_fields hcm).2.1) hg ho with ⟨c, hc, hco⟩
    have hs := (yearContribs_fields hc).2.2.2.2
    rw [hco, hnone] at hs
    exact Bool.noConfusion hs
  · intro objs obj hnone g hg ho
    rw [aggregate_publication_eq] at hg
    rcases sorted_values_obj_from_contrib
      (fun c hcm => (publicationContribs_fields hcm).2.1) hg ho with ⟨c, hc, hco⟩
    have hs := (publicationContribs_fields hc).2.2.2.2
    rw [hco, hnone] at hs
    exact Bool.noConfusion hs
  · intro objs obj hnone g hg ho
    rw [aggregate_issn_eq] at hg
    rcases sorted_values_obj_from_contrib
      (fun c hcm => (issnContribs_fields hcm).2.1) hg ho with ⟨c, hc, hco⟩
    have hs := (issnContribs_fields hc).2.2.2.2
    rw [hco, hnone] at hs
    exact Bool.noConfusion hs
  · intro objs obj hnone g hg ho
    rw [aggregate_collection_eq] at hg
    rcases sorted_values_obj_from_contrib
      (fun c hcm => (collectionContribs_fields hcm).2.1) hg ho with ⟨c, hc, hco⟩
    have hs := (collectionContribs_fields hc).2.2.2.2
    rw [hco, hnone] at hs
    exact Bool.noConfusion hs
  · intro gs objs obj hnone g hg ho
    rw [aggregate_subjects_eq] at hg
    rcases sorted_values_obj_from_contrib
      (fun c hcm => (subjectsContribs_fields hcm).2.1) hg ho with ⟨c, hc, hco⟩
    have hs := (subjectsContribs_fields hc).2.2.2
    rw [hco, hnone] at hs
    exact Bool.noConfusion hs
  · intro objs today h
    apply aggregate_latest_ok
    intro obj hm
    simp [passesLatest, get_lastmod_date, h obj hm]
  · intro objs obj hm hnone
    have hc : (⟨eventTitleOf obj,
        { key := slugify (eventTitleOf obj), label := eventTitleOf obj, count := 0,
          year := some (get_date_year obj), objects := [] }, obj⟩ : Contribution) ∈
        eventContribs objs :=
      List.mem_map.mpr ⟨obj, hm, rfl⟩
    rcases buildDict_contrib_mem hc with ⟨g0, hg0, hobj0⟩
    rcases buildDict_entry hg0 with ⟨c₀, hc₀mem, hdk, _, hg0eq⟩
    have ht : eventTitleOf obj = "" := by
      simp [eventTitleOf, hnone]
    refine ⟨g0, ?_, ?_, ?_, hobj0⟩
    · rw [aggregate_event_eq, mem_pySort]
      exact mem_values_iff.mpr ⟨_, hg0⟩
    · rw [hg0eq]
      show c₀.init.key = ""
      rw [(eventContribs_fields hc₀mem).2.2.1, hdk, ht]
      rfl
    · rw [hg0eq]
      show c₀.init.label = ""
      rw [(eventContribs_fields hc₀mem).2.2.2.1, hdk, ht]
  · intro objs obj hm hnone
    have hc : (⟨get_object_type obj,
        { key := get_object_type obj, label := make_label (get_object_type obj),
          type := some (get_object_type obj), count := 0, objects := [] }, obj⟩ :
        Contribution) ∈ typesContribs objs :=
      List.mem_map.mpr ⟨obj, hm, rfl⟩
    rcases buildDict_contrib_mem hc with ⟨g0, hg0, hobj0⟩
    rcases buildDict_entry hg0 with ⟨c₀, hc₀mem, hdk, _, hg0eq⟩
    have ht : get_object_type obj = "" := by
      simp [get_object_type, hnone]
    refine ⟨g0, ?_, ?_, ?_, hobj0⟩
    · rw [aggregate_types_eq, mem_pySort]
      exact mem_values_iff.mpr ⟨_, hg0⟩
    · rw [hg0eq]
      show c₀.init.key = ""
      rw [(typesContribs_fields hc₀mem).2.2.1, hdk, ht]
    · rw [hg0eq]
      show c₀.init.label = ""
      rw [(typesContribs_fields hc₀mem).2.2.2.1, hdk, ht]
      rfl
  · intro objs obj hm hnone
    have herr : ∀ st, ∃ e, peopleObjStep st obj = Except.error e := by
      intro st
      refine ⟨"KeyError: creators", ?_⟩
      rw [peopleObjStep, has_creator_ids, hnone]
    rcases foldlM_error_absorb peopleObjStep hm herr [] with ⟨e, he⟩
    refine ⟨e, ?_⟩
    rw [aggregate_people, he]
  · intro objs obj hm hnone
    have hc : (⟨get_eprint_id obj,
        { key := get_eprint_id obj, label := get_eprint_id obj,
          eprint_id := some (get_eprint_id obj), count := 0, objects := [] }, obj⟩ :
        Contribution) ∈ idsContribs objs :=
      List.mem_map.mpr ⟨obj, hm, rfl⟩
    rcases buildDict_contrib_mem hc with ⟨g, hk, _⟩
    have hkey : g.key = get_eprint_id obj :=
      buildDict_proj (fun x => x.key)
        (fun x hxm => (idsContribs_fields hxm).2.2.1) (fun g os => rfl) hk
    have hkey0 : g.key = "" := by
      rw [hkey, get_eprint_id, hnone]
    have hgm : g ∈ idsGroups objs := by
      rw [idsGroups_eq]
      exact mem_values_iff.mpr ⟨_, hk⟩
    have hall : (idsGroups objs).all (fun x => (pyInt x.key).isSome) = false :=
      List.all_eq_false.mpr ⟨g, hgm, by rw [hkey0]; decide⟩
    exact ⟨"ValueError: invalid literal for int with base 10",
      by rw [aggregate_ids_def, if_neg (by simp [hall])]⟩

/-- Witness for C2's amended theorem: the creators-missing failure at a
concrete one-record input. -/
theorem missing_field_handling_witness :
    ∃ e, aggregate_people [{ }] = Except.error e :=
  missing_field_handling.2.2.2.2.2.2.2.2.1 [{ }] { } (by decide) rfl

end EP
